import Mathlib

/-!
Verification of the decision-and-coordination core of the funding-rate
arbitrage bot: the data model (`src/models/position.py`,
`src/models/opportunity.py`), the position manager
(`src/bot/position_manager.py`), the rate oracle's pair-opportunity
detection (`src/bot/funding_oracle.py`) and the engine's trading loop and
safety logic (`src/bot/arbitrage_engine.py`).

Conventions of the shallow embedding:
* Python floats are modelled as exact rationals (`ℚ`).
* Wall-clock-derived quantities are re-coordinatized relative to the entity
  they belong to: a position carries its current age in hours
  (`datetime.now() - opened_at`), an opportunity its age in minutes
  (`datetime.now() - detected_at`) and its optional expiry as minutes after
  detection, so that `datetime.now() < valid_until` becomes
  `age_minutes < valid_until`.
* Network I/O (order placement, market-data and funding queries, balance
  validation) is modelled by explicit environment records passed to each
  operation, one field per remote outcome; an exceptional outcome of a call
  is an `Option`/`Except`/`Bool` value in the environment.
* Python dictionaries keyed by position id are modelled as lists in
  insertion order; indexing, insertion, deletion and in-place mutation of a
  stored object are the `lookupPos`/`dictInsert`/erase/update operations
  below.
* Python truthiness of an optional float (`if not price:`) is `truthyQ`:
  both `None` and `0.0` are falsy.
-/

/-- Python truthiness of an `Optional[float]`: `None` and `0.0` are falsy. -/
def truthyQ (x : Option ℚ) : Bool :=
  match x with
  | none => false
  | some v => v != 0

/-- `PositionStatus` enum of `src/models/position.py`. -/
inductive PositionStatus
  | opening
  | active
  | monitoring
  | closing
  | closed
  | error
  deriving DecidableEq, Repr

/-- `PositionSide` enum of `src/models/position.py`. -/
inductive PositionSide
  | long
  | short
  deriving DecidableEq, Repr

/-- A Python value stored in the dynamically-typed `side` field of
`ExchangePosition`: the position manager stores the plain strings
`"long"`/`"short"` while the venue connectors store `PositionSide` enum
members.  Python's `==` between a `str` and an enum member is `False`, which
this sum type reproduces. -/
inductive SideVal
  | enumSide (s : PositionSide)
  | strSide (s : String)
  deriving DecidableEq, Repr

/-- Python `side == PositionSide.LONG`. -/
def SideVal.isEnumLong : SideVal → Bool
  | .enumSide .long => true
  | _ => false

/-- `ExchangePosition` dataclass of `src/models/position.py`.
`entry_price`, `current_price` and `order_id` are `Optional` in the source. -/
structure ExchangePosition where
  exchange : String
  symbol : String
  side : SideVal
  size : ℚ
  entry_price : Option ℚ := none
  current_price : Option ℚ := none
  order_id : Option String := none
  deriving DecidableEq, Repr

/-- `ExchangePosition.pnl` of `src/models/position.py`: zero when either
price is falsy, `(current - entry) * size` when `side == PositionSide.LONG`,
else the short formula. -/
def ExchangePosition.pnl (p : ExchangePosition) : ℚ :=
  if ¬(truthyQ p.entry_price ∧ truthyQ p.current_price) then 0
  else
    let e := p.entry_price.getD 0
    let c := p.current_price.getD 0
    if p.side.isEnumLong then (c - e) * p.size else (e - c) * p.size

/-- `FundingMetrics` dataclass of `src/models/position.py`.  The two
`next_funding_time` stamps are kept as hours-until-funding coordinates; they
are stored but never used by the modelled computations. -/
structure FundingMetrics where
  initial_spread : ℚ
  current_spread : ℚ
  funding_collected_exchange_a : ℚ := 0
  funding_collected_exchange_b : ℚ := 0
  funding_rate_a : ℚ := 0
  funding_rate_b : ℚ := 0
  next_funding_time_a : Option ℚ := none
  next_funding_time_b : Option ℚ := none
  deriving DecidableEq, Repr

/-- `FundingMetrics.total_funding_collected`. -/
def FundingMetrics.total_funding_collected (m : FundingMetrics) : ℚ :=
  m.funding_collected_exchange_a + m.funding_collected_exchange_b

/-- `Position` dataclass of `src/models/position.py`.  `age_hours` is the
clock-derived `(datetime.now() - opened_at) / 3600` at the moment the state
is observed; `expected_close_hours` is `expected_close_time - opened_at` in
hours (`__post_init__` sets it to 4 weeks = 672 h when absent). -/
structure Position where
  id : String
  pair_name : String := ""
  token : String := ""
  exchange_a : String := ""
  exchange_b : String := ""
  position_a : Option ExchangePosition := none
  position_b : Option ExchangePosition := none
  size_usd : ℚ := 0
  leverage : ℕ := 1
  funding_metrics : Option FundingMetrics := none
  realized_pnl : ℚ := 0
  unrealized_pnl : ℚ := 0
  total_fees_paid : ℚ := 0
  age_hours : ℚ := 0
  expected_close_hours : Option ℚ := some 672
  status : PositionStatus := PositionStatus.opening
  auto_close_enabled : Bool := true
  emergency_close : Bool := false
  deriving DecidableEq, Repr

/-- `Position.is_expired`. -/
def Position.is_expired (p : Position) : Bool :=
  match p.expected_close_hours with
  | some h => p.age_hours > h
  | none => p.age_hours > 672

/-- `Position.total_pnl`: realized + unrealized + funding collected. -/
def Position.total_pnl (p : Position) : ℚ :=
  let funding_pnl :=
    match p.funding_metrics with
    | some m => m.total_funding_collected
    | none => 0
  p.realized_pnl + p.unrealized_pnl + funding_pnl

/-- `Position.net_pnl`: total PnL after fees. -/
def Position.net_pnl (p : Position) : ℚ :=
  p.total_pnl - p.total_fees_paid

/-- `Position.roi_percentage`. -/
def Position.roi_percentage (p : Position) : ℚ :=
  if p.size_usd = 0 then 0 else p.net_pnl / p.size_usd * 100

/-- `Position.hourly_profit_rate`. -/
def Position.hourly_profit_rate (p : Position) : ℚ :=
  if p.age_hours = 0 then 0 else p.net_pnl / p.age_hours

/-- `Position.daily_profit_rate`. -/
def Position.daily_profit_rate (p : Position) : ℚ :=
  p.hourly_profit_rate * 24

/-- `Position.is_profitable`. -/
def Position.is_profitable (p : Position) : Bool :=
  p.net_pnl > 0

/-- `Position.health_score`: base 50, profit factor clamped at ±30, spread
factor, age factor, final clamp to [0, 100]. -/
def Position.health_score (p : Position) : ℚ :=
  let score : ℚ := 50
  let score :=
    if p.net_pnl > 0 then score + min (p.roi_percentage * 10) 30
    else score + max (p.roi_percentage * 10) (-30)
  let score :=
    match p.funding_metrics with
    | some m =>
      if m.current_spread > 0.0002 then score + 10
      else if m.current_spread < 0 then score - 20
      else score
    | none => score
  let score :=
    if p.age_hours < 24 then score + 5
    else if p.age_hours > 168 then score - 5
    else score
  max 0 (min 100 score)

/-- `Position.should_close(min_profit_threshold, stop_loss_threshold)`. -/
def Position.should_close (p : Position) (min_profit_threshold : ℚ)
    (stop_loss_threshold : ℚ) : Bool :=
  let roi_decimal := p.roi_percentage / 100
  let spread_negative : Bool :=
    match p.funding_metrics with
    | some m => m.current_spread < 0
    | none => false
  if roi_decimal ≤ stop_loss_threshold then true
  else if p.is_expired then true
  else if spread_negative then true
  else if p.age_hours > 24 ∧ roi_decimal < min_profit_threshold ∧
          p.daily_profit_rate < min_profit_threshold then true
  else if p.emergency_close then true
  else false

/-- `Position.close_position(final_pnl, fees_paid)`: mark closed, set the
realized PnL, accumulate fees, zero the unrealized PnL. -/
def Position.close_position (p : Position) (final_pnl : ℚ) (fees_paid : ℚ) :
    Position :=
  { p with
    status := PositionStatus.closed
    realized_pnl := final_pnl
    total_fees_paid := p.total_fees_paid + fees_paid
    unrealized_pnl := 0 }

/-- `PositionManager` mutable state (`src/bot/position_manager.py`): the
active-position dict (insertion-ordered, keyed by `Position.id`), the
history list, and the cumulative counters. -/
structure ManagerState where
  active_positions : List Position := []
  position_history : List Position := []
  total_positions_opened : ℕ := 0
  total_positions_closed : ℕ := 0
  total_realized_pnl : ℚ := 0
  total_fees_paid : ℚ := 0
  deriving DecidableEq, Repr

/-- Dict indexing `active_positions[position_id]` / membership test. -/
def lookupPos (l : List Position) (i : String) : Option Position :=
  l.find? (fun p => p.id == i)

/-- Dict assignment `active_positions[p.id] = p`: replace in place when the
key exists, append otherwise. -/
def dictInsert (l : List Position) (p : Position) : List Position :=
  if l.any (fun q => q.id == p.id) then
    l.map (fun q => if q.id == p.id then p else q)
  else l ++ [p]

/-- The configuration fields of `FundingBotConfig` consumed by the modelled
core (`src/models/config.py`). -/
structure BotConfig where
  max_concurrent_positions : ℕ := 3
  position_size_usd : ℚ := 1000
  min_spread_threshold : ℚ := 0.0005
  min_profit_threshold : ℚ := 0.0002
  stop_loss_threshold : ℚ := -0.005
  max_daily_loss : ℚ := -0.01
  emergency_close_threshold : ℚ := -0.02
  deriving DecidableEq, Repr

/-- Remote outcomes consumed by one `close_position` call: whether the
body of `PositionManager.close_position` finalizes without raising
(`finalize_ok`), whether `_close_exchange_positions` hit its outer `except`
(`gather_failed`), and the fees of each leg-closing order that succeeded
(`none` = that close order returned an exception in the gather). -/
structure CloseEnv where
  finalize_ok : Bool := true
  gather_failed : Bool := false
  fees_a : Option ℚ := some 0
  fees_b : Option ℚ := some 0
  deriving DecidableEq, Repr

/-- `PositionManager._close_exchange_positions`: fees of the successful
close orders are summed; on the outer `except` the position's accumulated
fees are returned instead.  The final PnL is `position.net_pnl` in both
paths. -/
def closeExchangeFees (p : Position) (env : CloseEnv) : ℚ :=
  if env.gather_failed then p.total_fees_paid
  else env.fees_a.getD 0 + env.fees_b.getD 0

/-- `PositionManager.close_position(position_id, reason)`: `False` and no
change when the id is not active; otherwise status goes to CLOSING, the legs
are closed, the record is finalized via `Position.close_position`, moved
from the active dict to the history, and the cumulative counters updated.
When finalization raises, the stored position's status becomes ERROR and
`False` is returned. -/
def ManagerState.close_position (st : ManagerState) (position_id : String)
    (env : CloseEnv) : Bool × ManagerState :=
  match lookupPos st.active_positions position_id with
  | none => (false, st)
  | some pos =>
    let pos1 : Position := { pos with status := PositionStatus.closing }
    if env.finalize_ok then
      let final_pnl := pos1.net_pnl
      let total_fees := closeExchangeFees pos1 env
      let pos2 := pos1.close_position final_pnl total_fees
      (true,
        { st with
          active_positions :=
            st.active_positions.filter (fun q => q.id != position_id)
          position_history := st.position_history ++ [pos2]
          total_positions_closed := st.total_positions_closed + 1
          total_realized_pnl := st.total_realized_pnl + final_pnl
          total_fees_paid := st.total_fees_paid + total_fees })
    else
      (false,
        { st with
          active_positions := st.active_positions.map
            (fun q => if q.id == position_id then
              { pos1 with status := PositionStatus.error } else q) })

/-- C10: closing an id that is not in the active dict returns `False` and
changes nothing: the active set, the history and every cumulative counter
are left exactly as they were. -/
theorem close_position_unknown_id_noop (st : ManagerState) (i : String)
    (env : CloseEnv) (h : lookupPos st.active_positions i = none) :
    st.close_position i env = (false, st) := by
  unfold ManagerState.close_position
  rw [h]

/-- Witness for C10 at a concrete state: an empty manager refuses to close
the id `"p1"` and is returned unchanged. -/
theorem close_position_unknown_id_noop_witness :
    lookupPos (ManagerState.mk [] [] 0 0 0 0).active_positions "p1" = none ∧
    (ManagerState.mk [] [] 0 0 0 0).close_position "p1" {} =
      (false, ManagerState.mk [] [] 0 0 0 0) :=
  ⟨rfl, close_position_unknown_id_noop _ _ _ rfl⟩

/-- C7: a successful close of an active position removes it from the active
dict, appends exactly one closed record to the history, and that record
carries `realized_pnl` equal to the position's net PnL at close time, zero
unrealized PnL, the accumulated fees, and satisfies
`net_pnl = total_pnl - total_fees_paid`; the closed counter advances by
one. -/
theorem close_position_success_spec (st : ManagerState) (p : Position)
    (env : CloseEnv) (hmem : lookupPos st.active_positions p.id = some p)
    (hok : env.finalize_ok = true) :
    (st.close_position p.id env).1 = true ∧
    lookupPos (st.close_position p.id env).2.active_positions p.id = none ∧
    ∃ q : Position,
      (st.close_position p.id env).2.position_history =
        st.position_history ++ [q] ∧
      q.id = p.id ∧
      q.status = PositionStatus.closed ∧
      q.realized_pnl = p.net_pnl ∧
      q.unrealized_pnl = 0 ∧
      q.total_fees_paid =
        p.total_fees_paid + closeExchangeFees { p with
          status := PositionStatus.closing } env ∧
      q.net_pnl = q.total_pnl - q.total_fees_paid ∧
      (st.close_position p.id env).2.total_positions_closed =
        st.total_positions_closed + 1 := by
  obtain ⟨fok, gf, fa, fb⟩ := env
  cases hok
  unfold ManagerState.close_position
  rw [hmem]
  refine ⟨rfl, ?_, ⟨_, rfl, rfl, rfl, rfl, rfl, rfl, rfl, rfl⟩⟩
  unfold lookupPos
  rw [List.find?_eq_none]
  intro q hq
  have := (List.mem_filter.mp hq).2
  simpa [bne_iff_ne] using this

/-- Concrete position used by the C7 witness. -/
def c7Pos : Position :=
  { id := "p1", size_usd := 1000, unrealized_pnl := 7, total_fees_paid := 2,
    status := PositionStatus.active }

/-- Concrete manager state used by the C7 witness. -/
def c7St : ManagerState :=
  { active_positions := [c7Pos], total_positions_opened := 1 }

/-- Concrete close environment used by the C7 witness. -/
def c7Env : CloseEnv := { fees_a := some 1, fees_b := some 1 }

/-- Witness for C7: closing the only active position of a concrete manager
succeeds. -/
theorem close_position_success_spec_witness :
    lookupPos c7St.active_positions c7Pos.id = some c7Pos ∧
    c7Env.finalize_ok = true ∧
    (c7St.close_position c7Pos.id c7Env).1 = true :=
  ⟨by decide, rfl, (close_position_success_spec c7St c7Pos c7Env (by decide) rfl).1⟩

/-- Lowercasing as used by Python `str.lower()` on the ASCII exchange
names. -/
def toLowerStr (s : String) : String :=
  String.mk (s.data.map Char.toLower)

/-- Whether `pat` is a leading segment of `l`. -/
def startsWithChars : List Char → List Char → Bool
  | _, [] => true
  | [], _ :: _ => false
  | c :: cs, p :: ps => c == p && startsWithChars cs ps

/-- Whether `pat` occurs contiguously in `l`. -/
def containsChars : List Char → List Char → Bool
  | [], pat => pat.isEmpty
  | l@(_ :: rest), pat => startsWithChars l pat || containsChars rest pat

/-- Python substring test `pat in s`. -/
def strContains (s pat : String) : Bool :=
  containsChars s.data pat.data

/-- `OpportunityPriority` enum of `src/models/opportunity.py`. -/
inductive OpportunityPriority
  | low
  | medium
  | high
  | critical
  deriving DecidableEq, Repr

/-- `ExchangeData` dataclass of `src/models/opportunity.py`.
`next_funding_time` is kept as an hours-until-funding coordinate. -/
structure ExchangeData where
  exchange_name : String
  symbol : String
  funding_rate : ℚ
  next_funding_time : Option ℚ := none
  funding_frequency_hours : ℕ := 8
  current_price : Option ℚ := none
  volume_24h : Option ℚ := none
  suggested_side : String := ""
  max_position_size : ℚ := 0
  deriving DecidableEq, Repr

/-- `ArbitrageOpportunity` dataclass of `src/models/opportunity.py`.
`age_minutes` is the clock-derived `(datetime.now() - detected_at) / 60`;
`valid_until` is kept as minutes after detection, so that the source's
`datetime.now() < valid_until` becomes `age_minutes < valid_until`.  The
source never assigns `valid_until`, so it stays `none` in every modelled
flow. -/
structure Opportunity where
  id : String := ""
  token : String := ""
  pair_name : String := ""
  exchange_a : Option ExchangeData := none
  exchange_b : Option ExchangeData := none
  spread : ℚ := 0
  spread_percentage : ℚ := 0
  expected_daily_profit : ℚ := 0
  expected_hourly_profit : ℚ := 0
  age_minutes : ℚ := 0
  valid_until : Option ℚ := none
  estimated_duration_hours : ℚ := 24
  score : ℚ := 0
  priority : OpportunityPriority := OpportunityPriority.low
  confidence : ℚ := 0
  liquidity_score : ℚ := 0
  volatility_risk : ℚ := 0
  execution_risk : ℚ := 0
  recommended_size_usd : ℚ := 1000
  deriving DecidableEq, Repr

/-- `ArbitrageOpportunity.is_valid`. -/
def Opportunity.is_valid (o : Opportunity) : Bool :=
  match o.valid_until with
  | some vu => o.age_minutes < vu
  | none => o.age_minutes < 30

/-- `ArbitrageOpportunity.is_stale`. -/
def Opportunity.is_stale (o : Opportunity) : Bool :=
  o.age_minutes > 10

/-- `ArbitrageOpportunity.risk_adjusted_score`. -/
def Opportunity.risk_adjusted_score (o : Opportunity) : ℚ :=
  o.score * (1 - (o.volatility_risk + o.execution_risk) / 2) * o.confidence

/-- `ArbitrageOpportunity.should_execute(min_spread, min_score)`. -/
def Opportunity.should_execute (o : Opportunity) (min_spread : ℚ)
    (min_score : ℚ) : Bool :=
  o.is_valid ∧ ¬o.is_stale ∧ o.spread ≥ min_spread ∧ o.score ≥ min_score ∧
    o.confidence > 0.3 ∧ o.execution_risk < 0.7

/-- `ArbitrageOpportunity._calculate_metrics`: sets the spread, the
suggested sides (the leg with the lower rate is long), the per-period
profit and the daily-equivalent profit (arithmetic-mean period scaling with
the ad-hoc ×8 multiplier for pairs whose name contains "hyperliquid" and
whose period lengths differ).  No-op when a leg is missing. -/
def Opportunity.calculate_metrics (o : Opportunity) : Opportunity :=
  match o.exchange_a, o.exchange_b with
  | some a, some b =>
    let spread := |a.funding_rate - b.funding_rate|
    let aSet : ExchangeData × ExchangeData × ℚ :=
      if a.funding_rate > b.funding_rate then
        ({ a with suggested_side := "short" },
         { b with suggested_side := "long" },
         if b.funding_rate < 0 then a.funding_rate + |b.funding_rate|
         else spread)
      else
        ({ a with suggested_side := "long" },
         { b with suggested_side := "short" },
         if a.funding_rate < 0 then b.funding_rate + |a.funding_rate|
         else spread)
    let freq_a := a.funding_frequency_hours
    let freq_b := b.funding_frequency_hours
    let avg_frequency : ℚ := ((freq_a : ℚ) + (freq_b : ℚ)) / 2
    let funding_periods_per_day : ℚ := 24 / avg_frequency
    let hourly := aSet.2.2 * o.recommended_size_usd
    let daily := hourly * funding_periods_per_day
    let daily :=
      if strContains (toLowerStr o.pair_name) "hyperliquid" then
        daily * (if freq_a ≠ freq_b then 8 else 1)
      else daily
    { o with
      spread := spread
      spread_percentage := spread * 100
      exchange_a := some aSet.1
      exchange_b := some aSet.2.1
      expected_hourly_profit := hourly
      expected_daily_profit := daily }
  | _, _ => o

/-- `ArbitrageOpportunity._calculate_score`: spread term saturating at 40,
funding-frequency bonus, liquidity and confidence terms, pair bonus, clamp
to [0, 100].  Sets score to 0 when a leg is missing. -/
def Opportunity.calculate_score (o : Opportunity) : Opportunity :=
  match o.exchange_a, o.exchange_b with
  | some a, some b =>
    let score : ℚ := 0
    let score := score + min (o.spread * 8000) 40
    let freq_a := a.funding_frequency_hours
    let freq_b := b.funding_frequency_hours
    let score :=
      if min freq_a freq_b = 1 then score + 20
      else if max freq_a freq_b ≤ 8 then score + 10
      else score
    let score := score + o.liquidity_score * 15
    let score := score + o.confidence * 15
    let score :=
      if o.pair_name = "binance_hyperliquid" then score + 10
      else if o.pair_name = "kucoin_hyperliquid" then score + 8
      else if o.pair_name = "binance_kucoin" then score + 6
      else score + 0
    { o with score := min 100 (max 0 score) }
  | _, _ => { o with score := 0 }

/-- `ArbitrageOpportunity._set_priority`: the priority tier assigned from
the spread magnitude. -/
def Opportunity.set_priority (o : Opportunity) : Opportunity :=
  { o with priority :=
      if o.spread ≥ 0.002 then OpportunityPriority.critical
      else if o.spread ≥ 0.001 then OpportunityPriority.high
      else if o.spread ≥ 0.0005 then OpportunityPriority.medium
      else OpportunityPriority.low }

/-- `ArbitrageOpportunity.__post_init__`: metrics, score and priority are
computed when both legs are present. -/
def Opportunity.postInit (o : Opportunity) : Opportunity :=
  match o.exchange_a, o.exchange_b with
  | some _, some _ => (o.calculate_metrics.calculate_score).set_priority
  | _, _ => o

/-- `ArbitrageOpportunity.calculate_liquidity_score`: bucketed minimum 24h
volume; missing volumes count as 0. -/
def Opportunity.calculate_liquidity_score (o : Opportunity) : ℚ :=
  match o.exchange_a, o.exchange_b with
  | some a, some b =>
    let vol_a := a.volume_24h.getD 0
    let vol_b := b.volume_24h.getD 0
    let min_volume := min vol_a vol_b
    if min_volume ≥ 10000000 then 1
    else if min_volume ≥ 5000000 then 0.8
    else if min_volume ≥ 1000000 then 0.6
    else if min_volume ≥ 500000 then 0.4
    else 0.2
  | _, _ => 0

/-- `ArbitrageOpportunity.calculate_execution_risk`: age risk, oversized
spread risk, weekend risk, capped at 1. -/
def Opportunity.calculate_execution_risk (o : Opportunity)
    (weekend : Bool) : ℚ :=
  let risk : ℚ := 0
  let risk :=
    if o.age_minutes > 5 then risk + 0.2
    else if o.age_minutes > 2 then risk + 0.1
    else risk
  let risk := if o.spread > 0.005 then risk + 0.3 else risk
  let risk := if weekend then risk + 0.1 else risk
  min 1 risk

/-- `ArbitrageOpportunity.estimate_confidence`: base 0.5, spread-range
adjustments, reputable-exchange bonus, clamp to [0, 1]. -/
def Opportunity.estimate_confidence (o : Opportunity) : ℚ :=
  let confidence : ℚ := 0.5
  let confidence :=
    if 0.0002 ≤ o.spread ∧ o.spread ≤ 0.002 then confidence + 0.3
    else if o.spread > 0.002 then confidence - 0.2
    else confidence
  let reputable := ["binance", "kucoin", "hyperliquid"]
  let confidence :=
    match o.exchange_a, o.exchange_b with
    | some a, some b =>
      if reputable.contains (toLowerStr a.exchange_name) ∧
         reputable.contains (toLowerStr b.exchange_name) then
        confidence + 0.2
      else confidence
    | _, _ => confidence
  min 1 (max 0 confidence)

/-- The per-exchange fields that survive the
`_exchange_data_to_dict` / `create_opportunity` round trip of
`src/bot/funding_oracle.py` (`next_funding_time` is dropped by it). -/
structure ExchangeDict where
  exchange_name : String
  funding_rate : ℚ
  funding_frequency_hours : ℕ := 8
  current_price : Option ℚ := none
  volume_24h : Option ℚ := none
  deriving DecidableEq, Repr

/-- `create_opportunity(token, exchange_a_data, exchange_b_data)` factory of
`src/models/opportunity.py`: build the two legs, derive the pair name from
the lowercased exchange names, run `__post_init__`, then fill the risk
metrics (the score is NOT recomputed after they are set).  `weekend` is the
clock-derived weekday test of `calculate_execution_risk`; a freshly created
opportunity has `age_minutes = 0`. -/
def create_opportunity (token : String) (a b : ExchangeDict)
    (weekend : Bool) : Opportunity :=
  let ea : ExchangeData :=
    { exchange_name := a.exchange_name, symbol := token ++ "/USDT",
      funding_rate := a.funding_rate,
      funding_frequency_hours := a.funding_frequency_hours,
      current_price := a.current_price, volume_24h := a.volume_24h }
  let eb : ExchangeData :=
    { exchange_name := b.exchange_name, symbol := token ++ "/USDT",
      funding_rate := b.funding_rate,
      funding_frequency_hours := b.funding_frequency_hours,
      current_price := b.current_price, volume_24h := b.volume_24h }
  let pair_name :=
    toLowerStr a.exchange_name ++ "_" ++ toLowerStr b.exchange_name
  let o : Opportunity :=
    { token := token, pair_name := pair_name,
      exchange_a := some ea, exchange_b := some eb, age_minutes := 0 }
  let o := o.postInit
  let o := { o with liquidity_score := o.calculate_liquidity_score }
  let o := { o with execution_risk := o.calculate_execution_risk weekend }
  { o with confidence := o.estimate_confidence }

/-- `FundingRateOracle._get_exchange_frequency`. -/
def getExchangeFrequency (exchange_name : String) : ℕ :=
  if toLowerStr exchange_name = "binance" then 8
  else if toLowerStr exchange_name = "kucoin" then 8
  else if toLowerStr exchange_name = "hyperliquid" then 1
  else 8

/-- The opportunity built by `FundingRateOracle._detect_pair_opportunities`
for one common token: legs carry the venue funding rates and the per-venue
funding frequency, volume and price are absent, and the configured position
size is assigned AFTER `create_opportunity` has computed the profit
metrics. -/
def oracleOpportunity (cfg : BotConfig) (exchange_a exchange_b : String)
    (token : String) (ra rb : ℚ) (weekend : Bool) : Opportunity :=
  { create_opportunity token
      { exchange_name := exchange_a, funding_rate := ra,
        funding_frequency_hours := getExchangeFrequency exchange_a }
      { exchange_name := exchange_b, funding_rate := rb,
        funding_frequency_hours := getExchangeFrequency exchange_b }
      weekend with
    recommended_size_usd := cfg.position_size_usd }

/-- `FundingRateOracle._detect_pair_opportunities(exchange_a, exchange_b,
rates_a, rates_b)`: for every token quoted by both venues, compute the
spread, discard it below the configured minimum-spread threshold, and
otherwise produce the opportunity.  The per-venue rate dicts are modelled
as association lists. -/
def detect_pair_opportunities (cfg : BotConfig)
    (exchange_a exchange_b : String) (rates_a rates_b : List (String × ℚ))
    (weekend : Bool) : List Opportunity :=
  rates_a.filterMap (fun tr =>
    match rates_b.lookup tr.1 with
    | none => none
    | some rb =>
      if |tr.2 - rb| < cfg.min_spread_threshold then none
      else some (oracleOpportunity cfg exchange_a exchange_b tr.1 tr.2 rb
        weekend))

/-- Membership in `detect_pair_opportunities` comes from a token quoted by
both venues whose spread passed the threshold. -/
theorem mem_detect_pair_opportunities {cfg : BotConfig} {exA exB : String}
    {rates_a rates_b : List (String × ℚ)} {w : Bool} {o : Opportunity}
    (ho : o ∈ detect_pair_opportunities cfg exA exB rates_a rates_b w) :
    ∃ t ra rb, (t, ra) ∈ rates_a ∧ rates_b.lookup t = some rb ∧
      ¬(|ra - rb| < cfg.min_spread_threshold) ∧
      o = oracleOpportunity cfg exA exB t ra rb w := by
  unfold detect_pair_opportunities at ho
  obtain ⟨⟨t, ra⟩, hm, hf⟩ := List.mem_filterMap.mp ho
  dsimp only at hf
  split at hf
  · exact absurd hf (by simp)
  · rename_i rb hlb
    split at hf
    · exact absurd hf (by simp)
    · rename_i hsp
      exact ⟨t, ra, rb, hm, hlb, hsp, (Option.some.inj hf).symm⟩

/-- The spread of a detection-produced opportunity. -/
theorem oracleOpportunity_spread (cfg : BotConfig) (exA exB t : String)
    (ra rb : ℚ) (w : Bool) :
    (oracleOpportunity cfg exA exB t ra rb w).spread = |ra - rb| := rfl

/-- The token of a detection-produced opportunity. -/
theorem oracleOpportunity_token (cfg : BotConfig) (exA exB t : String)
    (ra rb : ℚ) (w : Bool) :
    (oracleOpportunity cfg exA exB t ra rb w).token = t := rfl

/-- The score clamp keeps the score nonnegative. -/
theorem oracleOpportunity_score_nonneg (cfg : BotConfig) (exA exB t : String)
    (ra rb : ℚ) (w : Bool) :
    0 ≤ (oracleOpportunity cfg exA exB t ra rb w).score :=
  le_min (by norm_num) (le_max_left _ _)

/-- The score clamp caps the score at 100. -/
theorem oracleOpportunity_score_le (cfg : BotConfig) (exA exB t : String)
    (ra rb : ℚ) (w : Bool) :
    (oracleOpportunity cfg exA exB t ra rb w).score ≤ 100 :=
  min_le_left _ _

/-- The legs of a detection-produced opportunity: the leg with the lower
rate is suggested long, the other short. -/
theorem oracleOpportunity_legs (cfg : BotConfig) (exA exB t : String)
    (ra rb : ℚ) (w : Bool) :
    ∃ da db, (oracleOpportunity cfg exA exB t ra rb w).exchange_a = some da ∧
      (oracleOpportunity cfg exA exB t ra rb w).exchange_b = some db ∧
      da.funding_rate = ra ∧ db.funding_rate = rb ∧
      (ra < rb → da.suggested_side = "long" ∧ db.suggested_side = "short") ∧
      (rb < ra → da.suggested_side = "short" ∧ db.suggested_side = "long") := by
  by_cases hc : ra > rb
  · refine ⟨⟨exA, t ++ "/USDT", ra, none, getExchangeFrequency exA, none,
      none, "short", 0⟩, ⟨exB, t ++ "/USDT", rb, none,
      getExchangeFrequency exB, none, none, "long", 0⟩, ?_, ?_, rfl, rfl,
      fun hlt => (lt_asymm hlt hc).elim, fun _ => ⟨rfl, rfl⟩⟩ <;>
      simp [oracleOpportunity, create_opportunity, Opportunity.postInit,
        Opportunity.calculate_metrics, Opportunity.calculate_score,
        Opportunity.set_priority, hc]
  · refine ⟨⟨exA, t ++ "/USDT", ra, none, getExchangeFrequency exA, none,
      none, "long", 0⟩, ⟨exB, t ++ "/USDT", rb, none,
      getExchangeFrequency exB, none, none, "short", 0⟩, ?_, ?_, rfl, rfl,
      fun _ => ⟨rfl, rfl⟩, fun hgt => (hc hgt).elim⟩ <;>
      simp [oracleOpportunity, create_opportunity, Opportunity.postInit,
        Opportunity.calculate_metrics, Opportunity.calculate_score,
        Opportunity.set_priority, hc]

/-- A key-value pair of an association list with distinct keys is found by
`lookup`. -/
theorem lookup_eq_of_mem_keys_nodup {l : List (String × ℚ)}
    (hnd : (l.map Prod.fst).Nodup) {t : String} {v : ℚ}
    (hm : (t, v) ∈ l) : l.lookup t = some v := by
  induction l with
  | nil => cases hm
  | cons hd tl ih =>
    obtain ⟨k, v'⟩ := hd
    rw [List.map_cons] at hnd
    rcases List.mem_cons.mp hm with heq | htl
    · injection heq with h1 h2
      subst h1
      subst h2
      simp [List.lookup]
    · have hne : k ≠ t := by
        intro h
        apply (List.nodup_cons.mp hnd).1
        rw [h]
        exact List.mem_map.mpr ⟨(t, v), htl, rfl⟩
      have hbeq : (t == k) = false := beq_eq_false_iff_ne.mpr (Ne.symm hne)
      simp only [List.lookup, hbeq]
      exact ih (List.nodup_cons.mp hnd).2 htl

/-- The per-period profit of a detection-produced opportunity: the
`profit_rate` ternaries of `_calculate_metrics` always collapse to the
spread, and the size in effect at computation time is the creation-time
default of 1000 USD. -/
theorem oracleOpportunity_hourly (cfg : BotConfig) (exA exB t : String)
    (ra rb : ℚ) (w : Bool) :
    (oracleOpportunity cfg exA exB t ra rb w).expected_hourly_profit =
      |ra - rb| * 1000 := by
  by_cases hc : ra > rb
  · by_cases hb : rb < 0
    · simp [oracleOpportunity, create_opportunity, Opportunity.postInit,
        Opportunity.calculate_metrics, Opportunity.calculate_score,
        Opportunity.set_priority, hc, hb, abs_of_neg hb,
        abs_of_pos (sub_pos.mpr hc)]
      ring
    · simp [oracleOpportunity, create_opportunity, Opportunity.postInit,
        Opportunity.calculate_metrics, Opportunity.calculate_score,
        Opportunity.set_priority, hc, hb]
  · by_cases hb : ra < 0
    · simp [oracleOpportunity, create_opportunity, Opportunity.postInit,
        Opportunity.calculate_metrics, Opportunity.calculate_score,
        Opportunity.set_priority, hc, hb, abs_of_neg hb, abs_sub_comm ra rb,
        abs_of_nonneg (sub_nonneg.mpr (not_lt.mp hc))]
      ring
    · simp [oracleOpportunity, create_opportunity, Opportunity.postInit,
        Opportunity.calculate_metrics, Opportunity.calculate_score,
        Opportunity.set_priority, hc, hb]

/-- The daily-equivalent profit of a detection-produced opportunity: the
per-period profit scaled by 24 over the arithmetic mean of the two funding
periods, times 8 exactly when the pair name contains "hyperliquid" and the
periods differ. -/
theorem oracleOpportunity_daily (cfg : BotConfig) (exA exB t : String)
    (ra rb : ℚ) (w : Bool) :
    (oracleOpportunity cfg exA exB t ra rb w).expected_daily_profit =
      (oracleOpportunity cfg exA exB t ra rb w).expected_hourly_profit *
        (24 / (((getExchangeFrequency exA : ℚ) +
          (getExchangeFrequency exB : ℚ)) / 2)) *
        (if strContains
            (toLowerStr (oracleOpportunity cfg exA exB t ra rb w).pair_name)
            "hyperliquid" = true ∧
            getExchangeFrequency exA ≠ getExchangeFrequency exB
         then 8 else 1) := by
  by_cases hcont : strContains
      (toLowerStr (toLowerStr exA ++ "_" ++ toLowerStr exB)) "hyperliquid" =
      true <;>
    by_cases hne : getExchangeFrequency exA = getExchangeFrequency exB <;>
      simp [oracleOpportunity, create_opportunity, Opportunity.postInit,
        Opportunity.calculate_metrics, Opportunity.calculate_score,
        Opportunity.set_priority, hcont, hne]

/-- C4: every opportunity produced by pair detection comes from a token
quoted by both venues of the pair and has spread equal to the absolute rate
difference, spread at or above the configured minimum-spread threshold,
score in [0, 100], and suggests long on the leg with the lower (more
negative) rate and short on the other; moreover no opportunity is produced
for a token whose rates lie below the threshold. -/
theorem detect_pair_opportunities_spec (cfg : BotConfig) (exA exB : String)
    (rates_a rates_b : List (String × ℚ)) (w : Bool)
    (hnd : (rates_a.map Prod.fst).Nodup) :
    (∀ o ∈ detect_pair_opportunities cfg exA exB rates_a rates_b w,
      ∃ t ra rb, (t, ra) ∈ rates_a ∧ rates_b.lookup t = some rb ∧
        o.token = t ∧ o.spread = |ra - rb| ∧
        cfg.min_spread_threshold ≤ o.spread ∧
        0 ≤ o.score ∧ o.score ≤ 100 ∧
        ∃ da db, o.exchange_a = some da ∧ o.exchange_b = some db ∧
          da.funding_rate = ra ∧ db.funding_rate = rb ∧
          (ra < rb → da.suggested_side = "long" ∧
            db.suggested_side = "short") ∧
          (rb < ra → da.suggested_side = "short" ∧
            db.suggested_side = "long")) ∧
    (∀ t ra rb, rates_a.lookup t = some ra → rates_b.lookup t = some rb →
      |ra - rb| < cfg.min_spread_threshold →
      ∀ o ∈ detect_pair_opportunities cfg exA exB rates_a rates_b w,
        o.token ≠ t) := by
  constructor
  · intro o ho
    obtain ⟨t, ra, rb, hm, hlb, hsp, rfl⟩ := mem_detect_pair_opportunities ho
    exact ⟨t, ra, rb, hm, hlb, rfl, rfl, not_lt.mp hsp,
      oracleOpportunity_score_nonneg cfg exA exB t ra rb w,
      oracleOpportunity_score_le cfg exA exB t ra rb w,
      oracleOpportunity_legs cfg exA exB t ra rb w⟩
  · intro t ra rb hla hlb hlt o ho
    obtain ⟨t', ra', rb', hm', hlb', hsp', rfl⟩ :=
      mem_detect_pair_opportunities ho
    intro htok
    have ht : t' = t := htok
    subst ht
    have hra : ra' = ra := by
      have := lookup_eq_of_mem_keys_nodup hnd hm'
      rw [hla] at this
      exact (Option.some.inj this).symm
    subst hra
    have hrb : rb' = rb := by
      rw [hlb] at hlb'
      exact (Option.some.inj hlb').symm
    subst hrb
    exact hsp' hlt

/-- Rates reported by venue A in the spec's concrete scenario. -/
def c4RatesA : List (String × ℚ) := [("BTC", 1/1000)]

/-- Rates reported by venue B in the spec's concrete scenario. -/
def c4RatesB : List (String × ℚ) := [("BTC", -(1/2500))]

/-- The opportunity detected in the spec's concrete scenario. -/
def c4Opp : Opportunity :=
  oracleOpportunity {} "binance" "kucoin" "BTC" (1/1000) (-(1/2500)) false

/-- The scenario opportunity is indeed produced by detection. -/
theorem c4Opp_mem : c4Opp ∈ detect_pair_opportunities {} "binance" "kucoin"
    c4RatesA c4RatesB false := by
  unfold c4Opp c4RatesA c4RatesB detect_pair_opportunities
  simp only [List.filterMap_cons, List.filterMap_nil, List.lookup_cons]
  norm_num
  rw [if_neg (by rw [abs_of_pos (by norm_num)]; norm_num)]
  exact List.mem_singleton.mpr rfl

/-- Witness for C4 at the spec's scenario (rates +0.0010 and -0.0004 for
BTC under the default 0.0005 threshold). -/
theorem detect_pair_opportunities_spec_witness :
    (c4RatesA.map Prod.fst).Nodup ∧
    (∃ t ra rb, (t, ra) ∈ c4RatesA ∧ c4RatesB.lookup t = some rb ∧
      c4Opp.token = t ∧ c4Opp.spread = |ra - rb| ∧
      ({} : BotConfig).min_spread_threshold ≤ c4Opp.spread ∧
      0 ≤ c4Opp.score ∧ c4Opp.score ≤ 100 ∧
      ∃ da db, c4Opp.exchange_a = some da ∧ c4Opp.exchange_b = some db ∧
        da.funding_rate = ra ∧ db.funding_rate = rb ∧
        (ra < rb → da.suggested_side = "long" ∧
          db.suggested_side = "short") ∧
        (rb < ra → da.suggested_side = "short" ∧
          db.suggested_side = "long")) :=
  ⟨by simp [c4RatesA],
    (detect_pair_opportunities_spec {} "binance" "kucoin" c4RatesA c4RatesB
      false (by simp [c4RatesA])).1 c4Opp c4Opp_mem⟩

/-- Modelled from the spec: the daily-equivalent profit the specification
asks for — per-period profit `spread × notional` scaled by the number of
compounding events per day obtained from the HARMONIC average
`2·fa·fb/(fa+fb)` of the two venues' funding-period lengths.  This is the
comparison point for the refinement claim about profit scaling; the
repository's own scaling is in `Opportunity.calculate_metrics`. -/
def specHarmonicDaily (spread notional fa fb : ℚ) : ℚ :=
  spread * notional * (24 / (2 * fa * fb / (fa + fb)))

/-- C9 (amended): for every detection-produced opportunity the per-period
profit is `spread × 1000` — the creation-time default size, not the
configured notional, which is assigned only afterwards — and the
daily-equivalent profit scales by 24 over the ARITHMETIC mean of the two
funding-period lengths, times a further 8 exactly when the pair name
contains "hyperliquid" and the two period lengths differ. -/
theorem detect_pair_profit_scaling (cfg : BotConfig) (exA exB : String)
    (rates_a rates_b : List (String × ℚ)) (w : Bool) (o : Opportunity)
    (ho : o ∈ detect_pair_opportunities cfg exA exB rates_a rates_b w) :
    o.expected_hourly_profit = o.spread * 1000 ∧
    o.expected_daily_profit = o.expected_hourly_profit *
      (24 / (((getExchangeFrequency exA : ℚ) +
        (getExchangeFrequency exB : ℚ)) / 2)) *
      (if strContains (toLowerStr o.pair_name) "hyperliquid" = true ∧
          getExchangeFrequency exA ≠ getExchangeFrequency exB
       then 8 else 1) := by
  obtain ⟨t, ra, rb, hm, hlb, hsp, rfl⟩ := mem_detect_pair_opportunities ho
  exact ⟨oracleOpportunity_hourly cfg exA exB t ra rb w,
    oracleOpportunity_daily cfg exA exB t ra rb w⟩

/-- A configuration whose position notional is 2000 USD, not the default. -/
def c9Cfg : BotConfig := { position_size_usd := 2000 }

/-- Rates reported by venue A in the profit-scaling counterexample. -/
def c9RatesA : List (String × ℚ) := [("BTC", 1/1000)]

/-- Rates reported by venue B in the profit-scaling counterexample. -/
def c9RatesB : List (String × ℚ) := [("BTC", -(1/2500))]

/-- The opportunity detected for the binance/hyperliquid pair in the
profit-scaling counterexample. -/
def c9Opp : Opportunity :=
  oracleOpportunity c9Cfg "binance" "hyperliquid" "BTC" (1/1000) (-(1/2500))
    false

/-- The counterexample opportunity is indeed produced by detection. -/
theorem c9Opp_mem : c9Opp ∈ detect_pair_opportunities c9Cfg "binance"
    "hyperliquid" c9RatesA c9RatesB false := by
  unfold c9Opp c9Cfg c9RatesA c9RatesB detect_pair_opportunities
  simp only [List.filterMap_cons, List.filterMap_nil, List.lookup_cons]
  norm_num
  rw [if_neg (by rw [abs_of_pos (by norm_num)]; norm_num)]
  exact List.mem_singleton.mpr rfl

/-- C9 counterexample: with a configured notional of 2000 USD and the
binance/hyperliquid pair (8 h vs 1 h funding periods) at rates +0.0010 and
-0.0004, the detected opportunity's per-period profit is NOT
`spread × notional` (it is `spread × 1000`, the creation-time default), and
its daily-equivalent profit is NOT the harmonic-average scaling the spec
describes (the code uses the arithmetic mean plus an ad-hoc ×8 multiplier
keyed on the pair name). -/
theorem detect_pair_profit_counterexample :
    c9Opp ∈ detect_pair_opportunities c9Cfg "binance" "hyperliquid" c9RatesA
      c9RatesB false ∧
    c9Opp.expected_hourly_profit ≠ c9Opp.spread * c9Opp.recommended_size_usd ∧
    c9Opp.expected_daily_profit ≠ specHarmonicDaily c9Opp.spread
      c9Opp.recommended_size_usd (getExchangeFrequency "binance")
      (getExchangeFrequency "hyperliquid") := by
  have habs : |(1:ℚ)/1000 - -(1/2500)| = 7/5000 := by
    rw [abs_of_pos (by norm_num)]
    norm_num
  have hfa : getExchangeFrequency "binance" = 8 := by decide
  have hfb : getExchangeFrequency "hyperliquid" = 1 := by decide
  refine ⟨c9Opp_mem, ?_, ?_⟩
  · show (oracleOpportunity c9Cfg "binance" "hyperliquid" "BTC" (1/1000)
      (-(1/2500)) false).expected_hourly_profit ≠
      c9Opp.spread * c9Opp.recommended_size_usd
    rw [oracleOpportunity_hourly,
      show c9Opp.spread = |(1:ℚ)/1000 - -(1/2500)| from rfl,
      show c9Opp.recommended_size_usd = 2000 from rfl, habs]
    norm_num
  · show (oracleOpportunity c9Cfg "binance" "hyperliquid" "BTC" (1/1000)
      (-(1/2500)) false).expected_daily_profit ≠ specHarmonicDaily
      c9Opp.spread c9Opp.recommended_size_usd (getExchangeFrequency "binance")
      (getExchangeFrequency "hyperliquid")
    rw [oracleOpportunity_daily, oracleOpportunity_hourly,
      show c9Opp.spread = |(1:ℚ)/1000 - -(1/2500)| from rfl,
      show c9Opp.recommended_size_usd = 2000 from rfl, habs, hfa, hfb,
      if_pos ⟨by decide, by decide⟩]
    norm_num [specHarmonicDaily]

/-- Witness for C9 (amended) at the binance/hyperliquid counterexample
input. -/
theorem detect_pair_profit_scaling_witness :
    c9Opp ∈ detect_pair_opportunities c9Cfg "binance" "hyperliquid" c9RatesA
      c9RatesB false ∧
    (c9Opp.expected_hourly_profit = c9Opp.spread * 1000 ∧
     c9Opp.expected_daily_profit = c9Opp.expected_hourly_profit *
       (24 / (((getExchangeFrequency "binance" : ℚ) +
         (getExchangeFrequency "hyperliquid" : ℚ)) / 2)) *
       (if strContains (toLowerStr c9Opp.pair_name) "hyperliquid" = true ∧
           getExchangeFrequency "binance" ≠ getExchangeFrequency "hyperliquid"
        then 8 else 1)) :=
  ⟨c9Opp_mem, detect_pair_profit_scaling c9Cfg "binance" "hyperliquid"
    c9RatesA c9RatesB false c9Opp c9Opp_mem⟩

/-- `OrderResult` returned by `place_market_order` in the venue-connector
contract (`src/exchange/base_connector.py`). -/
structure OrderResult where
  average_fill_price : ℚ
  fees_paid : ℚ := 0
  exchange_order_id : Option String := none
  deriving DecidableEq, Repr

/-- The only failure class the open path raises: `TradingError` of
`src/exchange/base_connector.py`.  The taxonomy of the source has no
separate partial-hedge error class — a one-sided fill surfaces as this same
generic constructor. -/
inductive OpenFailure
  | tradingError (msg : String)
  deriving DecidableEq, Repr

/-- Remote outcomes consumed by one `try_open_position` call: the joint
result of the balance/margin/connectivity pre-checks of
`_validate_trading_requirements`, the market-data fallback price, the two
concurrently placed leg orders (an `Except.error` is an exception raised by
`place_market_order`), and the uuid assigned to a created position. -/
structure OpenEnv where
  requirements_ok : Bool := true
  fallback_price : Option ℚ := none
  long_order : Except String OrderResult := Except.error "not placed"
  short_order : Except String OrderResult := Except.error "not placed"
  fresh_id : String := ""

/-- `PositionManager._can_open_position`: position-count headroom, no
existing position for the same (pair, token), and the opportunity passes
`should_execute` with the configured minimum spread and minimum score 30. -/
def can_open_position (cfg : BotConfig) (st : ManagerState)
    (opp : Opportunity) : Bool :=
  if st.active_positions.length ≥ cfg.max_concurrent_positions then false
  else if st.active_positions.any
      (fun p => p.pair_name == opp.pair_name && p.token == opp.token) then
    false
  else if ¬ opp.should_execute cfg.min_spread_threshold 30 then false
  else true

/-- `PositionManager._validate_trading_requirements`: `False` when a leg is
missing; the connector-presence, connectivity and balance checks are the
environment's joint verdict. -/
def validate_trading_requirements (opp : Opportunity) (env : OpenEnv) :
    Bool :=
  match opp.exchange_a, opp.exchange_b with
  | some _, some _ => env.requirements_ok
  | _, _ => false

/-- `PositionManager._open_arbitrage_position`: pick the long and short
venues from the suggested sides, derive the average price (falling back to
a live market-data query, with Python float truthiness: a zero price counts
as missing), size the legs, and submit both leg orders together via
`asyncio.gather` WITHOUT `return_exceptions` — if any leg submission
raises, the first exception propagates and the whole open is wrapped into a
generic `TradingError`; a filled sibling leg is neither recorded nor
unwound (the source marks this with a TODO).  On success the two-legged
`Position` is built with status ACTIVE. -/
def open_arbitrage_position (cfg : BotConfig) (opp : Opportunity)
    (env : OpenEnv) : Except OpenFailure Position :=
  match opp.exchange_a, opp.exchange_b with
  | some a, some b =>
    let long_exchange :=
      if a.suggested_side == "long" then a.exchange_name else b.exchange_name
    let short_exchange :=
      if b.suggested_side == "short" then b.exchange_name else a.exchange_name
    let symbol := opp.token ++ "/USDT"
    let cached : Option ℚ :=
      if truthyQ a.current_price ∧ truthyQ b.current_price then
        some ((a.current_price.getD 0 + b.current_price.getD 0) / 2)
      else none
    let price1 : Option ℚ :=
      if ¬ truthyQ cached then env.fallback_price else cached
    if ¬ truthyQ price1 then
      Except.error (OpenFailure.tradingError
        "Position opening failed: Cannot determine current price")
    else
      let avg_price := price1.getD 0
      let position_size_tokens := cfg.position_size_usd / avg_price
      match env.long_order, env.short_order with
      | Except.ok long_order, Except.ok short_order =>
        Except.ok
          { id := env.fresh_id,
            pair_name :=
              if opp.pair_name == "" ∧ long_exchange != "" ∧
                  short_exchange != "" then
                long_exchange ++ "_" ++ short_exchange
              else opp.pair_name,
            token := opp.token,
            exchange_a := long_exchange,
            exchange_b := short_exchange,
            position_a := some
              { exchange := long_exchange, symbol := symbol,
                side := SideVal.strSide "long",
                size := position_size_tokens,
                entry_price := some long_order.average_fill_price,
                order_id := long_order.exchange_order_id },
            position_b := some
              { exchange := short_exchange, symbol := symbol,
                side := SideVal.strSide "short",
                size := position_size_tokens,
                entry_price := some short_order.average_fill_price,
                order_id := short_order.exchange_order_id },
            size_usd := cfg.position_size_usd,
            leverage := 1,
            funding_metrics := some
              { initial_spread := opp.spread, current_spread := opp.spread,
                funding_rate_a := a.funding_rate,
                funding_rate_b := b.funding_rate,
                next_funding_time_a := a.next_funding_time,
                next_funding_time_b := b.next_funding_time },
            total_fees_paid := long_order.fees_paid + short_order.fees_paid,
            age_hours := 0,
            expected_close_hours := some 672,
            status := PositionStatus.active }
      | Except.error e, _ =>
        Except.error (OpenFailure.tradingError
          ("Position opening failed: " ++ e))
      | _, Except.error e =>
        Except.error (OpenFailure.tradingError
          ("Position opening failed: " ++ e))
  | _, _ =>
    Except.error (OpenFailure.tradingError
      "Position opening failed: missing exchange data")

/-- `PositionManager.try_open_position`: admission checks, trading
prerequisites, then the two-legged open; any raised `TradingError` is
caught, logged and collapsed to `None` — the caller cannot tell a
partial-hedge failure from any other failed open.  On success the position
is stored in the active dict and the opened counter advances. -/
def try_open_position (cfg : BotConfig) (st : ManagerState)
    (opp : Opportunity) (env : OpenEnv) : Option Position × ManagerState :=
  if ¬ can_open_position cfg st opp then (none, st)
  else if ¬ validate_trading_requirements opp env then (none, st)
  else
    match open_arbitrage_position cfg opp env with
    | Except.error _ => (none, st)
    | Except.ok position =>
      (some position,
        { st with
          active_positions := dictInsert st.active_positions position,
          total_positions_opened := st.total_positions_opened + 1 })

/-- Leg A of the partial-hedge failing input. -/
def c1LegA : ExchangeData :=
  { exchange_name := "binance", symbol := "BTC/USDT",
    funding_rate := 1/1000, funding_frequency_hours := 8,
    current_price := some 100, suggested_side := "short" }

/-- Leg B of the partial-hedge failing input. -/
def c1LegB : ExchangeData :=
  { exchange_name := "hyperliquid", symbol := "BTC/USDT",
    funding_rate := -(1/2500), funding_frequency_hours := 1,
    current_price := some 102, suggested_side := "long" }

/-- An executable opportunity (passes every admission gate). -/
def c1Opp : Opportunity :=
  { token := "BTC", pair_name := "binance_hyperliquid",
    exchange_a := some c1LegA, exchange_b := some c1LegB,
    spread := 7/5000, score := 50, confidence := 9/10,
    execution_risk := 0, volatility_risk := 0, age_minutes := 0 }

/-- The successfully filled long leg of the partial hedge. -/
def c1Order : OrderResult :=
  { average_fill_price := 101, fees_paid := 1, exchange_order_id := some "L1" }

/-- Failing input for the open operation: the long leg order succeeds while
the short leg order submission raises. -/
def c1PartialEnv : OpenEnv :=
  { requirements_ok := true, long_order := Except.ok c1Order,
    short_order := Except.error "boom", fresh_id := "p1" }

/-- A normal open failure for comparison: both leg orders raise. -/
def c1BothFailEnv : OpenEnv :=
  { requirements_ok := true, long_order := Except.error "boom",
    short_order := Except.error "conn lost", fresh_id := "p1" }

/-- C1: on the failing input where leg A's market order succeeds and leg
B's submission raises, no two-legged `Position` is added to the active set
(the manager state is returned unchanged and the result is `none`) — but
the failure is NOT surfaced as a partial-hedge error class distinct from a
normal open failure: the open path raises the same generic
`TradingError` constructor, and `try_open_position` collapses it to the
very same `(none, unchanged-state)` outcome that a both-legs-failed open
produces.  The filled long leg is silently dropped
(`position_manager.py:300`, `TODO: Cleanup partial orders if needed`). -/
theorem partial_hedge_no_position_and_no_distinct_error :
    open_arbitrage_position {} c1Opp c1PartialEnv =
      Except.error (OpenFailure.tradingError
        "Position opening failed: boom") ∧
    try_open_position {} {} c1Opp c1PartialEnv =
      (none, ({} : ManagerState)) ∧
    open_arbitrage_position {} c1Opp c1BothFailEnv =
      open_arbitrage_position {} c1Opp c1PartialEnv ∧
    try_open_position {} {} c1Opp c1BothFailEnv =
      try_open_position {} {} c1Opp c1PartialEnv := by
  refine ⟨?_, ?_, ?_, ?_⟩
  · norm_num [open_arbitrage_position, c1Opp, c1LegA, c1LegB, c1PartialEnv,
      truthyQ]
    rfl
  · norm_num [try_open_position, can_open_position, c1Opp, c1LegA, c1LegB,
      c1PartialEnv, validate_trading_requirements,
      Opportunity.should_execute, Opportunity.is_valid, Opportunity.is_stale,
      open_arbitrage_position, truthyQ]
  · norm_num [open_arbitrage_position, c1Opp, c1LegA, c1LegB, c1PartialEnv,
      c1BothFailEnv, truthyQ]
  · norm_num [try_open_position, can_open_position, c1Opp, c1LegA, c1LegB,
      c1PartialEnv, c1BothFailEnv, validate_trading_requirements,
      Opportunity.should_execute, Opportunity.is_valid, Opportunity.is_stale,
      open_arbitrage_position, truthyQ]

/-- `PositionManager._find_worst_position`: the first active position with
the lowest health score (Python's stable sort puts the earliest minimal
element first). -/
def find_worst_position (st : ManagerState) : Option Position :=
  match st.active_positions with
  | [] => none
  | p :: ps =>
    some (ps.foldl
      (fun best q => if q.health_score < best.health_score then q else best)
      p)

/-- `PositionManager._calculate_replacement_score`: the ratio of the new
opportunity's risk-adjusted score to the existing position's health score,
with divisor 10 guarding the zero/negative-health case. -/
def calculate_replacement_score (new_opportunity : Opportunity)
    (existing_position : Position) : ℚ :=
  if existing_position.health_score > 0 then
    new_opportunity.risk_adjusted_score / existing_position.health_score
  else
    new_opportunity.risk_adjusted_score / 10

/-- `PositionManager.consider_position_replacement`: below capacity it just
tries to open; at capacity it closes the worst position and opens the new
opportunity only when the replacement ratio exceeds 1.5. -/
def consider_position_replacement (cfg : BotConfig) (st : ManagerState)
    (new_opportunity : Opportunity) (oenv : OpenEnv) (cenv : CloseEnv) :
    Option Position × ManagerState :=
  if st.active_positions.length < cfg.max_concurrent_positions then
    try_open_position cfg st new_opportunity oenv
  else
    match find_worst_position st with
    | none => (none, st)
    | some worst =>
      let replacement_score := calculate_replacement_score new_opportunity
        worst
      if replacement_score > 1.5 then
        try_open_position cfg (st.close_position worst.id cenv).2
          new_opportunity oenv
      else (none, st)

/-- C8: at capacity, when the replacement ratio (risk-adjusted score of the
new opportunity over the worst position's health score, floor divisor 10
for non-positive health) does not exceed 1.5, no replacement happens: the
worst position is not closed and the state is returned unchanged with no
new position. -/
theorem replacement_only_above_threshold (cfg : BotConfig)
    (st : ManagerState) (opp : Opportunity) (oenv : OpenEnv)
    (cenv : CloseEnv) (worst : Position)
    (hcap : cfg.max_concurrent_positions ≤ st.active_positions.length)
    (hworst : find_worst_position st = some worst)
    (hle : calculate_replacement_score opp worst ≤ 1.5) :
    consider_position_replacement cfg st opp oenv cenv = (none, st) := by
  unfold consider_position_replacement
  rw [if_neg (not_lt.mpr hcap), hworst]
  dsimp only
  rw [if_neg (not_lt.mpr hle)]

/-- A single-slot configuration for the C8 witness. -/
def c8Cfg : BotConfig := { max_concurrent_positions := 1 }

/-- A healthy-enough existing position (health score 55). -/
def c8Pos : Position :=
  { id := "w1", size_usd := 1000, age_hours := 1,
    status := PositionStatus.active }

/-- A manager at capacity holding only `c8Pos`. -/
def c8St : ManagerState :=
  { active_positions := [c8Pos], total_positions_opened := 1 }

/-- A new opportunity with risk-adjusted score 60, so the replacement ratio
is 60/55 ≤ 1.5. -/
def c8Opp : Opportunity :=
  { token := "BTC", pair_name := "binance_kucoin", score := 60,
    confidence := 1, volatility_risk := 0, execution_risk := 0 }

/-- Witness for C8: at capacity with ratio 60/55 ≤ 1.5 the replacement is
refused and the state unchanged. -/
theorem replacement_only_above_threshold_witness :
    c8Cfg.max_concurrent_positions ≤ c8St.active_positions.length ∧
    find_worst_position c8St = some c8Pos ∧
    calculate_replacement_score c8Opp c8Pos ≤ 1.5 ∧
    consider_position_replacement c8Cfg c8St c8Opp {} {} = (none, c8St) :=
  ⟨by decide, rfl,
    by norm_num [calculate_replacement_score, Position.health_score,
      Position.roi_percentage, Position.net_pnl, Position.total_pnl,
      Opportunity.risk_adjusted_score, c8Opp, c8Pos],
    replacement_only_above_threshold c8Cfg c8St c8Opp {} {} c8Pos
      (by decide) rfl
      (by norm_num [calculate_replacement_score, Position.health_score,
        Position.roi_percentage, Position.net_pnl, Position.total_pnl,
        Opportunity.risk_adjusted_score, c8Opp, c8Pos])⟩

/-- Remote outcomes consumed by the per-position evaluation of one
monitoring pass: fresh leg prices and funding rates (`none` = that query
returned an exception and the old value is kept), whether the evaluation of
this position raised (queuing it for closure), and the environment of the
close call that may follow. -/
structure EvalEnv where
  err : Bool := false
  price_a : Option ℚ := none
  price_b : Option ℚ := none
  rate_a : Option (ℚ × Option ℚ) := none
  rate_b : Option (ℚ × Option ℚ) := none
  close_env : CloseEnv := {}

/-- `PositionManager._evaluate_position`: refresh the legs' current prices
(`_update_position_prices`), refresh the funding rates and recompute the
current spread (`_update_funding_metrics`), and recompute the unrealized
PnL as leg PnLs plus collected funding (`_calculate_position_pnl`). -/
def evaluate_position (p : Position) (e : EvalEnv) : Position :=
  let position_a :=
    match e.price_a, p.position_a with
    | some v, some xp => some { xp with current_price := some v }
    | _, _ => p.position_a
  let position_b :=
    match e.price_b, p.position_b with
    | some v, some xp => some { xp with current_price := some v }
    | _, _ => p.position_b
  let funding_metrics :=
    match p.funding_metrics with
    | some m =>
      let m :=
        match e.rate_a with
        | some rn =>
          { m with funding_rate_a := rn.1, next_funding_time_a := rn.2 }
        | none => m
      let m :=
        match e.rate_b with
        | some rn =>
          { m with funding_rate_b := rn.1, next_funding_time_b := rn.2 }
        | none => m
      some { m with current_spread := |m.funding_rate_a - m.funding_rate_b| }
    | none => p.funding_metrics
  let unrealized :=
    (match position_a with | some xp => xp.pnl | none => 0) +
    (match position_b with | some xp => xp.pnl | none => 0) +
    (match funding_metrics with
     | some m => m.total_funding_collected
     | none => 0)
  { p with
    position_a := position_a
    position_b := position_b
    funding_metrics := funding_metrics
    unrealized_pnl := unrealized }

/-- `PositionManager.evaluate_all_positions`: evaluate every active
position (a position whose evaluation raised is left as it was), collect
the ids that should close — close-criteria met, or evaluation error
(fail-closed) — then close each collected id. -/
def evaluate_all_positions (cfg : BotConfig) (st : ManagerState)
    (env : String → EvalEnv) : ManagerState :=
  if st.active_positions.isEmpty then st
  else
    let st1 := { st with
      active_positions := st.active_positions.map
        (fun (p : Position) =>
          if (env p.id).err then p else evaluate_position p (env p.id)) }
    let positions_to_close := (st1.active_positions.filter
      (fun (p : Position) => (env p.id).err ||
        p.should_close cfg.min_profit_threshold
          cfg.stop_loss_threshold)).map Position.id
    positions_to_close.foldl
      (fun s i => (s.close_position i (env i).close_env).2) st1

/-- The (venue-pair, instrument) key of a position. -/
def pairKey (p : Position) : String × String := (p.pair_name, p.token)

/-- The state invariant of the position manager: distinct position ids in
the active dict, no two active positions with the same (venue-pair,
instrument) key, the capacity bound, and no closed position left in the
active dict. -/
def ManagerInv (cfg : BotConfig) (st : ManagerState) : Prop :=
  (st.active_positions.map Position.id).Nodup ∧
  (st.active_positions.map pairKey).Nodup ∧
  st.active_positions.length ≤ cfg.max_concurrent_positions ∧
  ∀ p ∈ st.active_positions, p.status ≠ PositionStatus.closed

/-- The manager states reachable from the freshly constructed manager by
any sequence of try-open, close, evaluate and replacement operations, with
arbitrary remote outcomes.  Opportunities handed to the manager are
produced by `create_opportunity`, whose pair name
`lower(a) ++ "_" ++ lower(b)` is never the empty string, hence the
`pair_name ≠ ""` side conditions. -/
inductive ManagerReach (cfg : BotConfig) : ManagerState → Prop
  | init : ManagerReach cfg {}
  | tryOpen (st : ManagerState) (opp : Opportunity) (env : OpenEnv)
      (h : ManagerReach cfg st) (hpair : opp.pair_name ≠ "") :
      ManagerReach cfg (try_open_position cfg st opp env).2
  | close (st : ManagerState) (i : String) (e : CloseEnv)
      (h : ManagerReach cfg st) : ManagerReach cfg (st.close_position i e).2
  | evaluate (st : ManagerState) (env : String → EvalEnv)
      (h : ManagerReach cfg st) :
      ManagerReach cfg (evaluate_all_positions cfg st env)
  | replace (st : ManagerState) (opp : Opportunity) (oenv : OpenEnv)
      (cenv : CloseEnv) (h : ManagerReach cfg st)
      (hpair : opp.pair_name ≠ "") :
      ManagerReach cfg (consider_position_replacement cfg st opp oenv cenv).2

/-- Mapping a pointwise attribute-preserving transformation over a list preserves the attribute list. -/
theorem map_attr_of_pointwise {α : Type} {l : List Position}
    {g : Position → Position} (f : Position → α)
    (hg : ∀ p ∈ l, f (g p) = f p) : (l.map g).map f = l.map f := by
  rw [List.map_map]
  exact List.map_congr_left (fun p hp => hg p hp)

/-- A dict lookup returns a stored position whose id is the key. -/
theorem lookupPos_id {l : List Position} {i : String} {pos : Position}
    (h : lookupPos l i = some pos) : pos.id = i ∧ pos ∈ l := by
  unfold lookupPos at h
  exact ⟨by simpa using List.find?_some h, List.mem_of_find?_eq_some h⟩

/-- `close_position` preserves the manager invariant: a successful close only removes entries, a failed finalization only flips the stored position's status to ERROR. -/
theorem close_position_inv {cfg : BotConfig} {st : ManagerState} {i : String}
    {e : CloseEnv} (hinv : ManagerInv cfg st) :
    ManagerInv cfg (st.close_position i e).2 := by
  obtain ⟨hndid, hndkey, hlen, hstat⟩ := hinv
  unfold ManagerState.close_position
  split
  · exact ⟨hndid, hndkey, hlen, hstat⟩
  · rename_i pos heq
    obtain ⟨hposid, hposmem⟩ := lookupPos_id heq
    dsimp only
    split
    · refine ⟨?_, ?_, ?_, ?_⟩
      · exact List.Nodup.sublist
          ((List.filter_sublist _).map Position.id) hndid
      · exact List.Nodup.sublist ((List.filter_sublist _).map pairKey) hndkey
      · exact le_trans (List.length_filter_le _ _) hlen
      · intro p hp
        exact hstat p (List.mem_of_mem_filter hp)
    · refine ⟨?_, ?_, ?_, ?_⟩
      · rw [map_attr_of_pointwise Position.id]
        · exact hndid
        · intro q hq
          by_cases hqi : (q.id == i) = true
          · have hqid : q.id = i := by simpa using hqi
            simp [hqi, hposid, hqid]
          · simp [hqi]
      · rw [map_attr_of_pointwise pairKey]
        · exact hndkey
        · intro q hq
          by_cases hqi : (q.id == i) = true
          · have hqid : q.id = i := by simpa using hqi
            have hq_eq : q = pos :=
              List.inj_on_of_nodup_map hndid hq hposmem
                (hqid.trans hposid.symm)
            simp [hqi, hq_eq, pairKey, hposid]
          · simp [hqi]
      · rw [List.length_map]
        exact hlen
      · intro p hp
        obtain ⟨q, hq, rfl⟩ := List.mem_map.mp hp
        by_cases hqi : (q.id == i) = true
        · simp [hqi]
        · simp [hqi]
          exact hstat q hq

/-- What a successful `_can_open_position` admission guarantees: headroom and no active position with the same (pair, token). -/
theorem can_open_position_true {cfg : BotConfig} {st : ManagerState}
    {opp : Opportunity} (h : can_open_position cfg st opp = true) :
    st.active_positions.length < cfg.max_concurrent_positions ∧
    ∀ p ∈ st.active_positions,
      ¬(p.pair_name = opp.pair_name ∧ p.token = opp.token) := by
  unfold can_open_position at h
  split at h
  · exact absurd h (by simp)
  · rename_i hlen
    split at h
    · exact absurd h (by simp)
    · rename_i hany
      refine ⟨not_le.mp hlen, ?_⟩
      intro p hp hcon
      apply hany
      rw [List.any_eq_true]
      exact ⟨p, hp, by simp [hcon.1, hcon.2]⟩

/-- A position built by a fully successful two-legged open carries the opportunity's pair name and token and status ACTIVE. -/
theorem open_arbitrage_position_ok_fields {cfg : BotConfig}
    {opp : Opportunity} {env : OpenEnv} {position : Position}
    (hpair : opp.pair_name ≠ "")
    (h : open_arbitrage_position cfg opp env = Except.ok position) :
    position.pair_name = opp.pair_name ∧ position.token = opp.token ∧
    position.status = PositionStatus.active := by
  unfold open_arbitrage_position at h
  split at h
  next a b ha hb =>
    dsimp only at h
    have h1 : (opp.pair_name == "") = false := beq_eq_false_iff_ne.mpr hpair
    simp only [h1, Bool.false_eq_true, false_and, if_false] at h
    repeat' split at h
    all_goals first
      | exact Except.noConfusion h
      | (have hrec := Except.ok.inj h
         subst hrec
         exact ⟨rfl, rfl, rfl⟩)
  next x y hfall => exact Except.noConfusion h

/-- Replacing the unique id-matching entry by a position whose key clashes with no stored key keeps the key list duplicate-free. -/
theorem nodup_keys_map_replace (l : List Position) (newp : Position)
    (hndid : (l.map Position.id).Nodup)
    (hndkey : (l.map pairKey).Nodup)
    (hnew : ∀ q ∈ l, pairKey q ≠ pairKey newp) :
    ((l.map (fun q => if q.id == newp.id then newp else q)).map
      pairKey).Nodup := by
  induction l with
  | nil => simp
  | cons a t ih =>
    rw [List.map_cons] at hndid hndkey
    obtain ⟨haid, htid⟩ := List.nodup_cons.mp hndid
    obtain ⟨hakey, htkey⟩ := List.nodup_cons.mp hndkey
    rw [List.map_cons, List.map_cons, List.nodup_cons]
    by_cases ha : (a.id == newp.id) = true
    · have haid_eq : a.id = newp.id := by simpa using ha
      have hmapt : t.map (fun q => if q.id == newp.id then newp else q) =
          t := by
        conv_rhs => rw [← List.map_id t]
        apply List.map_congr_left
        intro q hq
        have hqf : (q.id == newp.id) = false := by
          apply beq_eq_false_iff_ne.mpr
          intro hqe
          apply haid
          rw [haid_eq, ← hqe]
          exact List.mem_map.mpr ⟨q, hq, rfl⟩
        simp [hqf]
      rw [hmapt]
      constructor
      · intro hmem
        rw [if_pos ha] at hmem
        obtain ⟨q, hq, hqk⟩ := List.mem_map.mp hmem
        exact hnew q (List.mem_cons_of_mem a hq) hqk
      · exact htkey
    · constructor
      · intro hmem
        rw [if_neg ha] at hmem
        obtain ⟨x, hx, hxk⟩ := List.mem_map.mp hmem
        obtain ⟨q, hq, rfl⟩ := List.mem_map.mp hx
        by_cases hq2 : (q.id == newp.id) = true
        · rw [if_pos hq2] at hxk
          exact hnew a (List.mem_cons_self a t) hxk.symm
        · rw [if_neg hq2] at hxk
          apply hakey
          rw [← hxk]
          exact List.mem_map.mpr ⟨q, hq, rfl⟩
      · exact ih htid htkey (fun q hq => hnew q (List.mem_cons_of_mem a hq))

/-- Dict assignment preserves distinct ids and distinct keys (given the new key clashes with none), grows the dict by at most one, and adds no entry beyond the new position. -/
theorem dictInsert_inv (l : List Position) (newp : Position)
    (hndid : (l.map Position.id).Nodup)
    (hndkey : (l.map pairKey).Nodup)
    (hnew : ∀ q ∈ l, pairKey q ≠ pairKey newp) :
    ((dictInsert l newp).map Position.id).Nodup ∧
    ((dictInsert l newp).map pairKey).Nodup ∧
    (dictInsert l newp).length ≤ l.length + 1 ∧
    ∀ q ∈ dictInsert l newp, q = newp ∨ q ∈ l := by
  unfold dictInsert
  split
  · refine ⟨?_, ?_, ?_, ?_⟩
    · rw [map_attr_of_pointwise Position.id]
      · exact hndid
      · intro q hq
        by_cases hqi : (q.id == newp.id) = true
        · simp [hqi]
          exact ((by simpa using hqi) : q.id = newp.id).symm
        · simp [hqi]
    · exact nodup_keys_map_replace l newp hndid hndkey hnew
    · rw [List.length_map]
      exact Nat.le_succ _
    · intro q hq
      obtain ⟨r, hr, hrq⟩ := List.mem_map.mp hq
      by_cases hri : (r.id == newp.id) = true
      · simp [hri] at hrq
        exact Or.inl hrq.symm
      · simp [hri] at hrq
        exact Or.inr (hrq ▸ hr)
  · rename_i hany
    refine ⟨?_, ?_, ?_, ?_⟩
    · rw [List.map_append, List.nodup_append]
      refine ⟨hndid, List.nodup_singleton _, ?_⟩
      intro x hx hx2
      simp at hx2
      apply hany
      rw [List.any_eq_true]
      obtain ⟨q, hq, hqid⟩ := List.mem_map.mp hx
      exact ⟨q, hq, by simp [hqid, hx2]⟩
    · rw [List.map_append, List.nodup_append]
      refine ⟨hndkey, List.nodup_singleton _, ?_⟩
      intro x hx hx2
      simp at hx2
      obtain ⟨q, hq, hqk⟩ := List.mem_map.mp hx
      exact hnew q hq (hqk.trans hx2)
    · rw [List.length_append]
      simp
    · intro q hq
      rcases List.mem_append.mp hq with hql | hqr
      · exact Or.inr hql
      · simp at hqr
        exact Or.inl hqr

/-- `try_open_position` preserves the manager invariant. -/
theorem try_open_position_inv {cfg : BotConfig} {st : ManagerState}
    {opp : Opportunity} {env : OpenEnv} (hinv : ManagerInv cfg st)
    (hpair : opp.pair_name ≠ "") :
    ManagerInv cfg (try_open_position cfg st opp env).2 := by
  unfold try_open_position
  split
  · exact hinv
  · rename_i hcan
    split
    · exact hinv
    · split
      · exact hinv
      · rename_i hval position hok
        obtain ⟨hlen, hdup⟩ := can_open_position_true (of_not_not hcan)
        obtain ⟨hpn, htk, hstatus⟩ :=
          open_arbitrage_position_ok_fields hpair hok
        obtain ⟨hndid, hndkey, hcap, hstat⟩ := hinv
        have hnew : ∀ q ∈ st.active_positions, pairKey q ≠ pairKey position := by
          intro q hq hcon
          apply hdup q hq
          have h1 : q.pair_name = position.pair_name :=
            congrArg Prod.fst hcon
          have h2 : q.token = position.token := congrArg Prod.snd hcon
          exact ⟨h1.trans hpn, h2.trans htk⟩
        obtain ⟨h1, h2, h3, h4⟩ :=
          dictInsert_inv st.active_positions position hndid hndkey hnew
        refine ⟨h1, h2, ?_, ?_⟩
        · exact le_trans h3 (Nat.succ_le_of_lt hlen)
        · intro p hp
          rcases h4 p hp with rfl | hmem
          · rw [hstatus]
            simp
          · exact hstat p hmem

/-- A sequence of closes preserves the manager invariant. -/
theorem foldl_close_inv {cfg : BotConfig} (cenvf : String → CloseEnv) :
    ∀ (ids : List String) (s : ManagerState), ManagerInv cfg s →
    ManagerInv cfg
      (ids.foldl (fun s i => (s.close_position i (cenvf i)).2) s) := by
  intro ids
  induction ids with
  | nil => exact fun s h => h
  | cons i ids ih => exact fun s h => ih _ (close_position_inv h)

/-- `evaluate_all_positions` preserves the manager invariant: the per-position refresh touches no id, key or status, and the queued closes preserve it. -/
theorem evaluate_all_positions_inv {cfg : BotConfig} {st : ManagerState}
    {env : String → EvalEnv} (hinv : ManagerInv cfg st) :
    ManagerInv cfg (evaluate_all_positions cfg st env) := by
  unfold evaluate_all_positions
  split
  · exact hinv
  · obtain ⟨hndid, hndkey, hlen, hstat⟩ := hinv
    have hinv1 : ManagerInv cfg { st with
        active_positions := st.active_positions.map
          (fun (p : Position) =>
            if (env p.id).err then p
            else evaluate_position p (env p.id)) } := by
      refine ⟨?_, ?_, ?_, ?_⟩
      · rw [map_attr_of_pointwise Position.id]
        · exact hndid
        · intro q hq
          split <;> rfl
      · rw [map_attr_of_pointwise pairKey]
        · exact hndkey
        · intro q hq
          split <;> rfl
      · rw [List.length_map]
        exact hlen
      · intro p hp
        obtain ⟨q, hq, rfl⟩ := List.mem_map.mp hp
        have hqs : (if (env q.id).err then q
            else evaluate_position q (env q.id)).status = q.status := by
          split <;> rfl
        rw [hqs]
        exact hstat q hq
    exact foldl_close_inv (fun i => (env i).close_env) _ _ hinv1

/-- `consider_position_replacement` preserves the manager invariant. -/
theorem consider_position_replacement_inv {cfg : BotConfig}
    {st : ManagerState} {opp : Opportunity} {oenv : OpenEnv}
    {cenv : CloseEnv} (hinv : ManagerInv cfg st)
    (hpair : opp.pair_name ≠ "") :
    ManagerInv cfg (consider_position_replacement cfg st opp oenv cenv).2 := by
  unfold consider_position_replacement
  split
  · exact try_open_position_inv hinv hpair
  · split
    · exact hinv
    · dsimp only
      split
      · exact try_open_position_inv (close_position_inv hinv) hpair
      · exact hinv

/-- Every reachable manager state satisfies the invariant. -/
theorem manager_reach_inv {cfg : BotConfig} {st : ManagerState}
    (h : ManagerReach cfg st) : ManagerInv cfg st := by
  induction h with
  | init => exact ⟨by simp, by simp, by simp, by simp⟩
  | tryOpen st opp env h hpair ih => exact try_open_position_inv ih hpair
  | close st i e h ih => exact close_position_inv ih
  | evaluate st env h ih => exact evaluate_all_positions_inv ih
  | replace st opp oenv cenv h hpair ih =>
    exact consider_position_replacement_inv ih hpair

/-- C2: in every reachable manager state the active set carries no two
positions with the same (venue-pair, instrument) key — and every stored
position is non-closed, so in particular no two non-closed positions share
a key. -/
theorem active_positions_unique_pair_instrument (cfg : BotConfig)
    (st : ManagerState) (h : ManagerReach cfg st) :
    (st.active_positions.map pairKey).Nodup ∧
    ∀ p ∈ st.active_positions, p.status ≠ PositionStatus.closed :=
  ⟨(manager_reach_inv h).2.1, (manager_reach_inv h).2.2.2⟩

/-- C3: in every reachable manager state the number of active positions is
at most the configured maximum. -/
theorem active_positions_within_capacity (cfg : BotConfig)
    (st : ManagerState) (h : ManagerReach cfg st) :
    st.active_positions.length ≤ cfg.max_concurrent_positions :=
  (manager_reach_inv h).2.2.1

/-- Leg A for the C2/C3 witness state. -/
def c2LegA : ExchangeData :=
  { exchange_name := "binance", symbol := "BTC/USDT",
    funding_rate := 1/1000, funding_frequency_hours := 8,
    current_price := some 100, suggested_side := "short" }

/-- Leg B for the C2/C3 witness state. -/
def c2LegB : ExchangeData :=
  { exchange_name := "hyperliquid", symbol := "BTC/USDT",
    funding_rate := -(1/2500), funding_frequency_hours := 1,
    current_price := some 102, suggested_side := "long" }

/-- An executable opportunity for the C2/C3 witness state. -/
def c2Opp : Opportunity :=
  { token := "BTC", pair_name := "binance_hyperliquid",
    exchange_a := some c2LegA, exchange_b := some c2LegB,
    spread := 7/5000, score := 50, confidence := 9/10,
    execution_risk := 0, volatility_risk := 0, age_minutes := 0 }

/-- Both leg orders fill in the C2/C3 witness open. -/
def c2Env : OpenEnv :=
  { requirements_ok := true,
    long_order := Except.ok
      { average_fill_price := 101, fees_paid := 1,
        exchange_order_id := some "L9" },
    short_order := Except.ok
      { average_fill_price := 102, fees_paid := 1,
        exchange_order_id := some "S9" },
    fresh_id := "p9" }

/-- Witness for C2 at the state reached by one successful open from the
fresh manager. -/
theorem active_positions_unique_pair_instrument_witness :
    ((try_open_position {} {} c2Opp c2Env).2.active_positions.map
      pairKey).Nodup :=
  (active_positions_unique_pair_instrument {} _
    (ManagerReach.tryOpen {} c2Opp c2Env ManagerReach.init (by decide))).1

/-- Witness for C3 at the state reached by one successful open from the
fresh manager. -/
theorem active_positions_within_capacity_witness :
    (try_open_position {} {} c2Opp c2Env).2.active_positions.length ≤
      BotConfig.max_concurrent_positions {} :=
  active_positions_within_capacity {} _
    (ManagerReach.tryOpen {} c2Opp c2Env ManagerReach.init (by decide))

/-- `EngineState` enum of `src/bot/arbitrage_engine.py`. -/
inductive EngineState
  | stopped
  | starting
  | running
  | stopping
  | error
  | emergency_stop
  deriving DecidableEq, Repr

/-- `ArbitrageEngine` mutable state (`src/bot/arbitrage_engine.py`):
lifecycle state, the consecutive-error counter, the emergency flag, cycle
counters, the number of positions opened today, the number of connected
exchanges, and the embedded position manager. -/
structure EngState where
  state : EngineState := EngineState.stopped
  error_count : ℕ := 0
  emergency_stop_triggered : Bool := false
  total_cycles : ℕ := 0
  successful_cycles : ℕ := 0
  positions_opened_today : ℕ := 0
  connected_count : ℕ := 0
  pm : ManagerState := {}
  deriving DecidableEq, Repr

/-- `ArbitrageEngine._calculate_current_daily_pnl` (lines 452-475):
realized net PnL of history entries closed today plus unrealized PnL of
the active positions, divided by `positions_opened_today x
position_size_usd`; `0.0` when that capital is not positive.
`closedToday` abstracts the `closed_at.date() == today` test. -/
def calculate_current_daily_pnl (cfg : BotConfig) (eng : EngState)
    (closedToday : Position → Bool) : ℚ :=
  let today_realized := (eng.pm.position_history.filter
    closedToday).foldl (fun s p => s + p.net_pnl) 0
  let total_unrealized := eng.pm.active_positions.foldl
    (fun s p => s + p.unrealized_pnl) 0
  let total_daily_pnl := today_realized + total_unrealized
  let total_capital :=
    (eng.positions_opened_today : ℚ) * cfg.position_size_usd
  if total_capital > 0 then total_daily_pnl / total_capital else 0

/-- `ArbitrageEngine._should_emergency_stop` (lines 429-450): daily PnL
at or below `max_daily_loss`, or at or below `emergency_close_threshold`,
or fewer than 2 connected exchanges. -/
def should_emergency_stop (cfg : BotConfig) (eng : EngState)
    (closedToday : Position → Bool) : Bool :=
  let current_daily_pnl := calculate_current_daily_pnl cfg eng closedToday
  if current_daily_pnl ≤ cfg.max_daily_loss then true
  else if current_daily_pnl ≤ cfg.emergency_close_threshold then true
  else if eng.connected_count < 2 then true
  else false

/-- `PositionManager.close_all_positions`: close every id present in the
active dict (snapshot of the keys, as `list(self.active_positions.keys())`
does). -/
def close_all_positions (pm : ManagerState) (cenv : String → CloseEnv) :
    ManagerState :=
  (pm.active_positions.map Position.id).foldl
    (fun s i => (s.close_position i (cenv i)).2) pm

/-- `ArbitrageEngine.stop(emergency)` (lines 251-290): set
`EMERGENCY_STOP` (raising the flag) or `STOPPING`, close all positions on
the emergency path, then `position_manager.stop()` (which closes all
positions again), and finish in `STOPPED`. -/
def engine_stop (emergency : Bool) (cenv : String → CloseEnv)
    (eng : EngState) : EngState :=
  let eng1 :=
    if emergency then
      { eng with state := EngineState.emergency_stop,
                 emergency_stop_triggered := true }
    else { eng with state := EngineState.stopping }
  let pm1 := if emergency then close_all_positions eng1.pm cenv else eng1.pm
  let pm2 := close_all_positions pm1 cenv
  { eng1 with pm := pm2, state := EngineState.stopped }

/-- Whether one iteration of `_main_trading_loop` ran its cycle body to
completion or raised an unhandled exception. -/
inductive CycleResult
  | success
  | failure
  deriving DecidableEq, Repr

/-- One iteration of `ArbitrageEngine._main_trading_loop` (lines
296-339).  On a clean cycle the manager state and today-counter advance,
then `_should_emergency_stop` is consulted and either `stop(emergency=
True)` runs or the cycle counters advance; the error counter is left
untouched (the code never resets it).  On an unhandled exception the error
counter is incremented and, at 10 or more, `stop(emergency=True)` runs. -/
def trading_loop_step (cfg : BotConfig) (eng : EngState)
    (res : CycleResult) (pmAfter : ManagerState) (openedThisCycle : ℕ)
    (closedToday : Position → Bool) (cenv : String → CloseEnv) : EngState :=
  if eng.state ≠ EngineState.running then eng
  else
    match res with
    | CycleResult.success =>
      let eng1 := { eng with
        pm := pmAfter,
        positions_opened_today :=
          eng.positions_opened_today + openedThisCycle }
      if should_emergency_stop cfg eng1 closedToday then
        let eng2 := engine_stop true cenv eng1
        { eng2 with total_cycles := eng2.total_cycles + 1 }
      else
        { eng1 with
          successful_cycles := eng1.successful_cycles + 1,
          total_cycles := eng1.total_cycles + 1 }
    | CycleResult.failure =>
      let eng1 := { eng with
        pm := pmAfter,
        positions_opened_today :=
          eng.positions_opened_today + openedThisCycle,
        error_count := eng.error_count + 1 }
      if eng1.error_count ≥ 10 then
        let eng2 := engine_stop true cenv eng1
        { eng2 with total_cycles := eng2.total_cycles + 1 }
      else
        { eng1 with total_cycles := eng1.total_cycles + 1 }

/-- A close whose finalize step succeeds leaves exactly the active
positions with a different id. -/
theorem close_position_ok_active {pm : ManagerState} {i : String}
    {e : CloseEnv} (hok : e.finalize_ok = true) :
    ((pm.close_position i e).2).active_positions =
      pm.active_positions.filter (fun p => p.id != i) := by
  unfold ManagerState.close_position
  split
  · rename_i heq
    unfold lookupPos at heq
    rw [List.find?_eq_none] at heq
    rw [List.filter_eq_self.mpr]
    intro p hp
    simpa using heq p hp
  · dsimp only
    rw [if_pos hok]

/-- Folding successful closes over a list of ids filters those ids out
of the active dict. -/
theorem foldl_close_active (cenv : String → CloseEnv)
    (hok : ∀ i, (cenv i).finalize_ok = true) :
    ∀ (ids : List String) (pm : ManagerState),
      ((ids.foldl (fun s i => (s.close_position i (cenv i)).2)
        pm).active_positions) =
      pm.active_positions.filter (fun p => !(ids.contains p.id)) := by
  intro ids
  induction ids with
  | nil => intro pm; simp
  | cons i ids ih =>
    intro pm
    rw [List.foldl_cons, ih, close_position_ok_active (hok i),
      List.filter_filter]
    apply List.filter_congr
    intro p hp
    by_cases h : p.id = i <;>
      simp [List.contains_cons, Bool.not_or, h, Bool.and_comm]

/-- When every close finalizes successfully, `close_all_positions`
empties the active dict. -/
theorem close_all_positions_active (pm : ManagerState)
    (cenv : String → CloseEnv)
    (hok : ∀ i, (cenv i).finalize_ok = true) :
    (close_all_positions pm cenv).active_positions = [] := by
  unfold close_all_positions
  rw [foldl_close_active cenv hok]
  apply List.filter_eq_nil_iff.mpr
  intro p hp
  simp only [Bool.not_eq_true', Bool.not_eq_false]
  exact List.elem_eq_true_of_mem (List.mem_map.mpr ⟨p, hp, rfl⟩)

/-- Default configuration, used by the C5 witness. -/
def c5Cfg : BotConfig := {}

/-- A concrete losing position (unrealized -100 USD) for the C5
witness. -/
def c5Pos0 : Position :=
  { id := "pos_c5", token := "BTC", pair_name := "binance_kucoin",
    unrealized_pnl := -100 }

/-- Manager state holding the losing position, for the C5 witness. -/
def c5Pm : ManagerState := { active_positions := [c5Pos0] }

/-- A running engine with both exchanges connected, for the C5
witness. -/
def c5Eng : EngState :=
  { state := EngineState.running, connected_count := 2 }

/-- Close environment in which every remote close succeeds, for the C5
witness. -/
def c5Cenv : String → CloseEnv := fun _ => {}

/-- Calendar predicate counting every history entry as closed today,
for the C5 witness. -/
def c5Today : Position → Bool := fun _ => true

/-- C5: whenever the engine is running and the daily
realized-plus-unrealized PnL fraction at the end of the cycle is at or
below `max_daily_loss`, the cycle triggers the emergency stop: the flag is
raised, the engine ends the cycle in `STOPPED`, and (all remote closes
succeeding) the active-position set is emptied. -/
theorem daily_loss_triggers_emergency_stop (cfg : BotConfig)
    (eng : EngState) (pmAfter : ManagerState) (n : ℕ)
    (closedToday : Position → Bool) (cenv : String → CloseEnv)
    (hrun : eng.state = EngineState.running)
    (hok : ∀ i, (cenv i).finalize_ok = true)
    (hloss : calculate_current_daily_pnl cfg
        { eng with
            pm := pmAfter
            positions_opened_today := eng.positions_opened_today + n }
        closedToday ≤ cfg.max_daily_loss) :
    (trading_loop_step cfg eng CycleResult.success pmAfter n closedToday
        cenv).emergency_stop_triggered = true ∧
    (trading_loop_step cfg eng CycleResult.success pmAfter n closedToday
        cenv).state = EngineState.stopped ∧
    (trading_loop_step cfg eng CycleResult.success pmAfter n closedToday
        cenv).pm.active_positions = [] := by
  have hcond : should_emergency_stop cfg
      { eng with
          pm := pmAfter
          positions_opened_today := eng.positions_opened_today + n }
      closedToday = true := by
    unfold should_emergency_stop
    dsimp only
    rw [if_pos hloss]
  unfold trading_loop_step
  rw [if_neg (by simp [hrun])]
  dsimp only
  rw [if_pos hcond]
  refine ⟨rfl, rfl, ?_⟩
  exact close_all_positions_active _ cenv hok

/-- Witness for C5: a cycle that opened one 1000-USD position now
carrying -100 USD unrealized (a -10 percent day, below the -1 percent
limit) trips the emergency stop and empties the book. -/
theorem daily_loss_triggers_emergency_stop_witness :
    (trading_loop_step c5Cfg c5Eng CycleResult.success c5Pm 1 c5Today
        c5Cenv).emergency_stop_triggered = true ∧
    (trading_loop_step c5Cfg c5Eng CycleResult.success c5Pm 1 c5Today
        c5Cenv).state = EngineState.stopped ∧
    (trading_loop_step c5Cfg c5Eng CycleResult.success c5Pm 1 c5Today
        c5Cenv).pm.active_positions = [] :=
  daily_loss_triggers_emergency_stop c5Cfg c5Eng c5Pm 1 c5Today c5Cenv
    rfl (fun _ => rfl)
    (by norm_num [calculate_current_daily_pnl, c5Cfg, c5Eng, c5Pm, c5Pos0,
      c5Today, Position.net_pnl, Position.total_pnl])

/-- A clean cycle never changes the error counter - in particular it
does not reset it. -/
theorem step_success_error_count (cfg : BotConfig) (eng : EngState)
    (pmA : ManagerState) (n : ℕ) (ct : Position → Bool)
    (cenv : String → CloseEnv) :
    (trading_loop_step cfg eng CycleResult.success pmA n ct
      cenv).error_count = eng.error_count := by
  unfold trading_loop_step
  split
  · rfl
  · dsimp only
    split <;> rfl

/-- A failing cycle below the ceiling: the error counter and total-cycle
counter advance and nothing else changes. -/
theorem step_failure_below (cfg : BotConfig) (eng : EngState)
    (pmA : ManagerState) (n : ℕ) (ct : Position → Bool)
    (cenv : String → CloseEnv)
    (hrun : eng.state = EngineState.running)
    (hlt : eng.error_count + 1 < 10) :
    trading_loop_step cfg eng CycleResult.failure pmA n ct cenv =
      { eng with
          pm := pmA
          positions_opened_today := eng.positions_opened_today + n
          error_count := eng.error_count + 1
          total_cycles := eng.total_cycles + 1 } := by
  unfold trading_loop_step
  rw [if_neg (by simp [hrun])]
  dsimp only
  split
  · rename_i h
    omega
  · rfl

/-- A failing cycle that reaches the ceiling of 10 consecutive errors
triggers the emergency stop. -/
theorem step_failure_at_ceiling (cfg : BotConfig) (eng : EngState)
    (pmA : ManagerState) (n : ℕ) (ct : Position → Bool)
    (cenv : String → CloseEnv)
    (hrun : eng.state = EngineState.running)
    (hge : eng.error_count + 1 ≥ 10) :
    (trading_loop_step cfg eng CycleResult.failure pmA n ct
      cenv).emergency_stop_triggered = true ∧
    (trading_loop_step cfg eng CycleResult.failure pmA n ct
      cenv).state = EngineState.stopped := by
  unfold trading_loop_step
  rw [if_neg (by simp [hrun])]
  dsimp only
  split
  · exact ⟨rfl, rfl⟩
  · rename_i h
    omega

/-- A failing cycle of a running engine increments the error counter by
exactly one. -/
theorem step_failure_error_count (cfg : BotConfig) (eng : EngState)
    (pmA : ManagerState) (n : ℕ) (ct : Position → Bool)
    (cenv : String → CloseEnv)
    (hrun : eng.state = EngineState.running) :
    (trading_loop_step cfg eng CycleResult.failure pmA n ct
      cenv).error_count = eng.error_count + 1 := by
  unfold trading_loop_step
  rw [if_neg (by simp [hrun])]
  dsimp only
  split <;> rfl

/-- Up to nine consecutive failing cycles from a zero error count leave
the engine running with the error counter equal to the number of
failures. -/
theorem iterate_failure_state (cfg : BotConfig) (ct : Position → Bool)
    (cenv : String → CloseEnv) (eng : EngState)
    (hrun : eng.state = EngineState.running)
    (hcount : eng.error_count = 0) :
    ∀ k, k ≤ 9 →
      ((fun s => trading_loop_step cfg s CycleResult.failure s.pm 0 ct
          cenv)^[k] eng).state = EngineState.running ∧
      ((fun s => trading_loop_step cfg s CycleResult.failure s.pm 0 ct
          cenv)^[k] eng).error_count = k := by
  intro k
  induction k with
  | zero => intro _; exact ⟨hrun, hcount⟩
  | succ k ih =>
    intro hk
    obtain ⟨hs, hc⟩ := ih (by omega)
    rw [Function.iterate_succ_apply']
    rw [step_failure_below cfg _ _ 0 ct cenv hs (by omega)]
    refine ⟨hs, ?_⟩
    show ((fun s => trading_loop_step cfg s CycleResult.failure s.pm 0 ct
      cenv)^[k] eng).error_count + 1 = k + 1
    omega

/-- Default configuration, used by the C6 counterexample and witness. -/
def c6Cfg : BotConfig := {}

/-- A running engine with both exchanges connected and a zero error
count, used by the C6 counterexample and witness. -/
def c6Eng : EngState :=
  { state := EngineState.running, connected_count := 2 }

/-- Calendar predicate counting no history entry as closed today, used
by the C6 counterexample and witness. -/
def c6Today : Position → Bool := fun _ => false

/-- Close environment in which every remote close succeeds, used by the
C6 counterexample and witness. -/
def c6Cenv : String → CloseEnv := fun _ => {}

/-- C6 counterexample: after one failing cycle followed by one clean
cycle the error counter is 1, not 0 - the clean cycle leaves the engine
running normally but never resets the counter, contradicting the claimed
reset-on-clean-cycle behaviour. -/
theorem error_count_not_reset_on_clean_cycle :
    (trading_loop_step c6Cfg
        (trading_loop_step c6Cfg c6Eng CycleResult.failure c6Eng.pm 0
          c6Today c6Cenv)
        CycleResult.success c6Eng.pm 0 c6Today c6Cenv).error_count = 1 ∧
    (trading_loop_step c6Cfg
        (trading_loop_step c6Cfg c6Eng CycleResult.failure c6Eng.pm 0
          c6Today c6Cenv)
        CycleResult.success c6Eng.pm 0 c6Today c6Cenv).state
      = EngineState.running := by
  rw [step_failure_below c6Cfg c6Eng c6Eng.pm 0 c6Today c6Cenv rfl
    (by norm_num [c6Eng])]
  constructor
  · rw [step_success_error_count]
    rfl
  · unfold trading_loop_step
    rw [if_neg (by simp [c6Eng])]
    dsimp only
    split
    · rename_i h
      norm_num [should_emergency_stop, calculate_current_daily_pnl,
        c6Cfg, c6Eng, c6Today] at h
    · rfl

/-- C6 (amended): the error counter is incremented on every failing
cycle and merely preserved - never reset - on a clean cycle; from a zero
count, nine consecutive failing cycles leave the engine running with the
counter at 9, and the 10th consecutive failure trips the emergency stop
and stops the engine. -/
theorem consecutive_error_circuit_breaker (cfg : BotConfig)
    (eng : EngState) (pmA : ManagerState) (n : ℕ)
    (ct : Position → Bool) (cenv : String → CloseEnv)
    (hrun : eng.state = EngineState.running)
    (hcount : eng.error_count = 0) :
    (trading_loop_step cfg eng CycleResult.failure pmA n ct
        cenv).error_count = eng.error_count + 1 ∧
    (trading_loop_step cfg eng CycleResult.success pmA n ct
        cenv).error_count = eng.error_count ∧
    ((fun s => trading_loop_step cfg s CycleResult.failure s.pm 0 ct
        cenv)^[9] eng).state = EngineState.running ∧
    ((fun s => trading_loop_step cfg s CycleResult.failure s.pm 0 ct
        cenv)^[9] eng).error_count = 9 ∧
    ((fun s => trading_loop_step cfg s CycleResult.failure s.pm 0 ct
        cenv)^[10] eng).emergency_stop_triggered = true ∧
    ((fun s => trading_loop_step cfg s CycleResult.failure s.pm 0 ct
        cenv)^[10] eng).state = EngineState.stopped := by
  obtain ⟨h9s, h9c⟩ := iterate_failure_state cfg ct cenv eng hrun hcount 9
    (le_refl 9)
  have h10 := step_failure_at_ceiling cfg
    ((fun s => trading_loop_step cfg s CycleResult.failure s.pm 0 ct
      cenv)^[9] eng)
    ((fun s => trading_loop_step cfg s CycleResult.failure s.pm 0 ct
      cenv)^[9] eng).pm 0 ct cenv h9s (by omega)
  have e10 : ((fun s => trading_loop_step cfg s CycleResult.failure s.pm 0
      ct cenv)^[10] eng) =
      (fun s => trading_loop_step cfg s CycleResult.failure s.pm 0 ct cenv)
        ((fun s => trading_loop_step cfg s CycleResult.failure s.pm 0 ct
          cenv)^[9] eng) := by
    rw [show (10 : ℕ) = 9 + 1 from by norm_num]
    exact Function.iterate_succ_apply' _ 9 eng
  refine ⟨step_failure_error_count cfg eng pmA n ct cenv hrun,
    step_success_error_count cfg eng pmA n ct cenv, h9s, h9c, ?_, ?_⟩
  · rw [e10]
    exact h10.1
  · rw [e10]
    exact h10.2

/-- Witness for C6 at the concrete running engine: the increment, the
preservation, and the 10-failure trip all instantiated. -/
theorem consecutive_error_circuit_breaker_witness :
    (trading_loop_step c6Cfg c6Eng CycleResult.failure c6Eng.pm 2 c6Today
        c6Cenv).error_count = c6Eng.error_count + 1 ∧
    (trading_loop_step c6Cfg c6Eng CycleResult.success c6Eng.pm 2 c6Today
        c6Cenv).error_count = c6Eng.error_count ∧
    ((fun s => trading_loop_step c6Cfg s CycleResult.failure s.pm 0 c6Today
        c6Cenv)^[9] c6Eng).state = EngineState.running ∧
    ((fun s => trading_loop_step c6Cfg s CycleResult.failure s.pm 0 c6Today
        c6Cenv)^[9] c6Eng).error_count = 9 ∧
    ((fun s => trading_loop_step c6Cfg s CycleResult.failure s.pm 0 c6Today
        c6Cenv)^[10] c6Eng).emergency_stop_triggered = true ∧
    ((fun s => trading_loop_step c6Cfg s CycleResult.failure s.pm 0 c6Today
        c6Cenv)^[10] c6Eng).state = EngineState.stopped :=
  consecutive_error_circuit_breaker c6Cfg c6Eng c6Eng.pm 2 c6Today c6Cenv
    rfl rfl
